import Mathlib

/-!
Verification of the record-extraction engine of the timber_trades_journal
repository: the context-aware line parser (`tools/ttj_parser_v3.py`), the
cargo-field segmenter (`tools/cargo_parser.py`) and the tiered port
normalizer (`tools/normalize_with_authority_review.py`).

Strings are modelled as `List Char` (`Str`).  Python regular expressions are
modelled by a small backtracking engine (`RE` / `matchRE`) with Python's
leftmost, greedy/lazy, first-alternative-wins semantics; every quantified
sub-expression of the patterns in this code base is a single character
class, so repetition (`RE.repCls`) needs no general sub-pattern and the
matcher is structurally recursive.  Character classes are predicates; case
handling covers ASCII plus the Latin-1 letters occurring in this corpus.
-/

abbrev Str := List Char

/-! ## Character predicates and elementary string operations -/

/-- Python whitespace (`str.strip`, regex `\s`) restricted to the ASCII
whitespace characters that occur in the corpus. -/
def pyIsSpace (c : Char) : Bool :=
  c == ' ' || c == '\t' || c == '\n' || c == '\r' || c == '\x0b' || c == '\x0c'

def isAsciiUpperC (c : Char) : Bool := 65 ≤ c.toNat && c.toNat ≤ 90

def isAsciiLowerC (c : Char) : Bool := 97 ≤ c.toNat && c.toNat ≤ 122

def isAsciiAlphaC (c : Char) : Bool := isAsciiUpperC c || isAsciiLowerC c

def isDigitC (c : Char) : Bool := 48 ≤ c.toNat && c.toNat ≤ 57

/-- Regex `\w` (unicode word character), restricted to ASCII alphanumerics,
underscore, and the Latin-1 letters (U+00C0–U+00FF minus the two signs
U+00D7, U+00F7) that occur in this corpus. -/
def isWordC (c : Char) : Bool :=
  isAsciiAlphaC c || isDigitC c || c == '_' ||
    (192 ≤ c.toNat && c.toNat ≤ 255 && c.toNat ≠ 215 && c.toNat ≠ 247)

/-- `str.lower` for ASCII and Latin-1 (U+00C0–U+00DE minus U+00D7 map up by
0x20), the ranges exercised by this code base. -/
def toLowerC (c : Char) : Char :=
  if 65 ≤ c.toNat ∧ c.toNat ≤ 90 then Char.ofNat (c.toNat + 32)
  else if 192 ≤ c.toNat ∧ c.toNat ≤ 222 ∧ c.toNat ≠ 215 then Char.ofNat (c.toNat + 32)
  else c

/-- `str.upper` for ASCII and Latin-1. -/
def toUpperC (c : Char) : Char :=
  if 97 ≤ c.toNat ∧ c.toNat ≤ 122 then Char.ofNat (c.toNat - 32)
  else if 224 ≤ c.toNat ∧ c.toNat ≤ 254 ∧ c.toNat ≠ 247 then Char.ofNat (c.toNat - 32)
  else c

def lowerS (s : Str) : Str := s.map toLowerC

def upperS (s : Str) : Str := s.map toUpperC

/-- Python `str.strip()` (no argument): drop leading and trailing whitespace. -/
def pyStrip (s : Str) : Str :=
  ((s.dropWhile pyIsSpace).reverse.dropWhile pyIsSpace).reverse

/-- Python `str.rstrip('.')`. -/
def pyRstripDot (s : Str) : Str := (s.reverse.dropWhile (· == '.')).reverse

def apoC : Char := Char.ofNat 39

def emDashC : Char := Char.ofNat 8212

/-- Python `str.lstrip('—-')`. -/
def pyLstripDashes (s : Str) : Str := s.dropWhile (fun c => c == '-' || c == emDashC)

def isPrefixOfB : Str → Str → Bool
  | [], _ => true
  | _ :: _, [] => false
  | a :: as, b :: bs => a == b && isPrefixOfB as bs

/-- Python `needle in hay` (substring containment). -/
def containsSub : Str → Str → Bool
  | [], needle => needle.isEmpty
  | c :: t, needle => isPrefixOfB needle (c :: t) || containsSub t needle

def containsChar (s : Str) (c : Char) : Bool := s.any (· == c)

/-- Scanning loop of `pyReplace`; the fuel only serves structural
termination and decreases by one per step while the string shrinks by at
least one character (the key is non-empty), so `fuel = s.length` never runs
out. -/
def pyReplaceAux (k v : Str) : Nat → Str → Str
  | _, [] => []
  | 0, s => s
  | fuel + 1, c :: t =>
    if isPrefixOfB k (c :: t) then v ++ pyReplaceAux k v fuel ((c :: t).drop k.length)
    else c :: pyReplaceAux k v fuel t

/-- Python `str.replace(k, v)`: replace every non-overlapping occurrence of
`k`, scanning left to right.  (All keys used in this development are
non-empty; an empty key returns the string unchanged.) -/
def pyReplace (s k v : Str) : Str :=
  if k.length = 0 then s else pyReplaceAux k v s.length s

/-- Python `re.split(';', s)` — split at every separator character. -/
def splitChar (sep : Char) : Str → List Str
  | [] => [[]]
  | c :: t =>
    if c == sep then [] :: splitChar sep t
    else
      match splitChar sep t with
      | [] => [[c]]
      | h :: r => (c :: h) :: r

theorem length_dropWhile_le (p : Char → Bool) (s : Str) :
    (s.dropWhile p).length ≤ s.length := by
  induction s with
  | nil => simp [List.dropWhile]
  | cons c t ih =>
    simp only [List.dropWhile]
    split
    · exact Nat.le_succ_of_le ih
    · simp

/-- Helper of `pySplitWs`, accumulating the current word reversed. -/
def pySplitWsAux : Str → Str → List Str
  | [], acc => if acc.isEmpty then [] else [acc.reverse]
  | c :: t, acc =>
    if pyIsSpace c then
      if acc.isEmpty then pySplitWsAux t [] else acc.reverse :: pySplitWsAux t []
    else pySplitWsAux t (c :: acc)

/-- Python `str.split()` (no argument): split on whitespace runs, no empty
pieces. -/
def pySplitWs (s : Str) : List Str := pySplitWsAux s []

/-- Python `int(s)` on a digit string. -/
def strToNat (s : Str) : Nat := s.foldl (fun n c => n * 10 + (c.toNat - 48)) 0

/-- Last `n` elements of a list (`lst[-n:]` / the `range(max(0, i-4), i)`
context window). -/
def lastN (n : Nat) (l : List Str) : List Str := l.drop (l.length - n)

/-- First match in an association list (Python `dict` lookup; keys are
unique in every table of this code base). -/
def lookupA (m : List (Str × Str)) (k : Str) : Option Str :=
  (m.find? (fun p => p.1 == k)).map (·.2)

/-- Python truthiness of a string. -/
def truthyS (s : Str) : Bool := !s.isEmpty

/-- Python truthiness of an optional string (`None` and `""` are falsy). -/
def truthyOS (o : Option Str) : Bool :=
  match o with
  | none => false
  | some s => truthyS s

/-- Python truthiness of an optional int (`None` and `0` are falsy). -/
def truthyON (o : Option Nat) : Bool :=
  match o with
  | none => false
  | some n => !(n == 0)

/-! ## Regular-expression engine

Backtracking matcher with Python `re` semantics for the constructs used by
the patterns of this repository: concatenation, prioritized alternation
(`|`, and `?` as `alt r eps` / lazy `alt eps r`), capturing groups,
lookahead, `$`, and repetition of a single character class with greedy or
lazy policy.  `matchRE r s g k` attempts `r` on `s` with capture state `g`
and continuation `k`; the first success in backtracking order is returned,
which is exactly Python's first-match semantics. -/

inductive RE where
  | eps : RE
  | cls (p : Char → Bool) : RE
  | seq (a b : RE) : RE
  | alt (a b : RE) : RE
  | grp (idx : Nat) (a : RE) : RE
  | repCls (p : Char → Bool) (lo : Nat) (hi : Option Nat) (lz : Bool) : RE
  | look (a : RE) : RE
  | eos : RE

abbrev Caps := List (Nat × Str)

def setG (g : Caps) (n : Nat) (v : Str) : Caps := (n, v) :: g

def getG (g : Caps) (n : Nat) : Option Str :=
  (g.find? (fun p => p.1 == n)).map (·.2)

/-- Length of the longest run of characters satisfying `p` at the head. -/
def runLen (p : Char → Bool) : Str → Nat
  | [] => 0
  | c :: t => if p c then runLen p t + 1 else 0

/-- Candidate repetition counts in the order backtracking tries them:
longest first when greedy, shortest first when lazy. -/
def candList (lo maxK : Nat) (lz : Bool) : List Nat :=
  let asc := List.range' lo (maxK + 1 - lo)
  if lz then asc else asc.reverse

def matchRE {α : Type} : RE → Str → Caps → (Str → Caps → Option α) → Option α
  | .eps, s, g, k => k s g
  | .cls p, s, g, k =>
    match s with
    | [] => none
    | c :: t => if p c then k t g else none
  | .seq a b, s, g, k => matchRE a s g (fun t g2 => matchRE b t g2 k)
  | .alt a b, s, g, k =>
    match matchRE a s g k with
    | some r => some r
    | none => matchRE b s g k
  | .grp n a, s, g, k =>
    matchRE a s g (fun t g2 => k t (setG g2 n (s.take (s.length - t.length))))
  | .repCls p lo hi lz, s, g, k =>
    let m := runLen p s
    let mk := match hi with | none => m | some h => min m h
    (candList lo mk lz).findSome? (fun n => k (s.drop n) g)
  | .look a, s, g, k =>
    match matchRE a s g (fun _ g2 => some g2) with
    | some g2 => k s g2
    | none => none
  | .eos, s, g, k => if s.isEmpty || s == ['\n'] then k s g else none

/-- Python `re.match`: anchored at the start, prefix match, returning the
captures of the first (leftmost-biased) successful attempt. -/
def reMatch (r : RE) (s : Str) : Option Caps := matchRE r s [] (fun _ g => some g)

/-- Like `reMatch` but also returning the number of consumed characters
(the match end, needed by `findall`). -/
def reMatchEnd (r : RE) (s : Str) : Option (Caps × Nat) :=
  matchRE r s [] (fun rest g => some (g, s.length - rest.length))

/-- Python `re.search`: try the pattern at every position, leftmost first. -/
def reSearchAux (r : RE) : Str → Option Caps
  | [] => reMatch r []
  | c :: t =>
    match reMatch r (c :: t) with
    | some g => some g
    | none => reSearchAux r t

/-- Python `re.findall`: non-overlapping matches, scanning left to right,
advancing by at least one character after each match. -/
def findAllAux (r : RE) : Nat → Str → List Caps
  | 0, _ => []
  | fuel + 1, s =>
    match reMatchEnd r s with
    | some (g, consumed) =>
      if s.isEmpty then [g]
      else g :: findAllAux r fuel (s.drop (max consumed 1))
    | none =>
      match s with
      | [] => []
      | _ :: t => findAllAux r fuel t

def findAll (r : RE) (s : Str) : List Caps := findAllAux r (s.length + 1) s

def chrR (c : Char) : RE := RE.cls (· == c)

/-- Greedy `r?`. -/
def optR (r : RE) : RE := RE.alt r RE.eps

def ws0 : RE := RE.repCls pyIsSpace 0 none false

def ws1 : RE := RE.repCls pyIsSpace 1 none false

def seqs (rs : List RE) : RE := rs.foldr RE.seq RE.eps

/-! ## Patterns of `tools/ttj_parser_v3.py` (compiled in `TTJContextParser.__init__`)

All three record patterns and the date header are compiled with
`re.IGNORECASE`; under that flag `[a-z]`/`[A-Z]` match every ASCII letter,
which is what `isAsciiAlphaC` encodes.  The port-header pattern is compiled
without flags, so its `[A-Z]` really is upper case only. -/

/-- `[A-Za-z\s\.\&\'\-]` — the ship-name class (also the merchant-name class
of the cargo merchant search). -/
def shipClassC (c : Char) : Bool :=
  isAsciiAlphaC c || pyIsSpace c || c == '.' || c == '&' || c == apoC || c == '-'

/-- `[A-Za-z\s\.,\-&]` — origin class of the early @-pattern. -/
def earlyOriginClassC (c : Char) : Bool :=
  isAsciiAlphaC c || pyIsSpace c || c == '.' || c == ',' || c == '-' || c == '&'

/-- `[A-Za-z\s\.,\'\-]` — origin class of the dash patterns. -/
def stdOriginClassC (c : Char) : Bool :=
  isAsciiAlphaC c || pyIsSpace c || c == '.' || c == ',' || c == apoC || c == '-'

/-- `[^-]`. -/
def notDashC (c : Char) : Bool := !(c == '-')

/-- `.` (any character except newline). -/
def dotAnyC (c : Char) : Bool := !(c == '\n')

/-- `[A-Z\s&\.\'\(\)]` — the port-header class (no IGNORECASE). -/
def portHeaderClassC (c : Char) : Bool :=
  isAsciiUpperC c || pyIsSpace c || c == '&' || c == '.' || c == apoC ||
    c == '(' || c == ')'

/-- `(?:\(s\))?` — the optional steamer marker. -/
def steamerOptR : RE := optR (seqs [chrR '(', chrR 's', chrR ')'])

/-- `early_at_pattern`:
`^(?:(?P<month>\w{3,9})\.?\s+(?P<day>\d{1,2})\.?\s+)?(?P<ship>[A-Za-z\s\.\&\'\-]+?)\s*(?:\(s\))?\s*@\s*(?P<origin>[A-Za-z\s\.,\-&]+?),?\s*(?=[—\d])(?P<cargo>.*?)$`
with groups month=1, day=2, ship=3, origin=4, cargo=5. -/
def earlyAtRE : RE := seqs [
  optR (seqs [RE.grp 1 (RE.repCls isWordC 3 (some 9) false), optR (chrR '.'), ws1,
              RE.grp 2 (RE.repCls isDigitC 1 (some 2) false), optR (chrR '.'), ws1]),
  RE.grp 3 (RE.repCls shipClassC 1 none true),
  ws0, steamerOptR, ws0,
  chrR '@', ws0,
  RE.grp 4 (RE.repCls earlyOriginClassC 1 none true),
  optR (chrR ','), ws0,
  RE.look (RE.cls (fun c => c == emDashC || isDigitC c)),
  RE.grp 5 (RE.repCls dotAnyC 0 none true),
  RE.eos]

/-- `standard_dash_pattern`:
`^(?:(?P<month>\w{3,9})\.\s+)?(?P<day>\d{1,2})\s+(?P<ship>[A-Za-z\s\.\&\'\-]+?)\s*(?:\(s\))?\s*-\s*(?P<origin>[A-Za-z\s\.,\'\-]+?)\s*-\s*(?P<cargo>[^-]+?)\s*-\s*(?P<merchant>.+?)$`
with groups month=1, day=2, ship=3, origin=4, cargo=5, merchant=6. -/
def standardDashRE : RE := seqs [
  optR (seqs [RE.grp 1 (RE.repCls isWordC 3 (some 9) false), chrR '.', ws1]),
  RE.grp 2 (RE.repCls isDigitC 1 (some 2) false), ws1,
  RE.grp 3 (RE.repCls shipClassC 1 none true),
  ws0, steamerOptR, ws0, chrR '-', ws0,
  RE.grp 4 (RE.repCls stdOriginClassC 1 none true),
  ws0, chrR '-', ws0,
  RE.grp 5 (RE.repCls notDashC 1 none true),
  ws0, chrR '-', ws0,
  RE.grp 6 (RE.repCls dotAnyC 1 none true),
  RE.eos]

/-- `condensed_dash_pattern`:
`^(?P<ship>[A-Z][A-Za-z\s\.\&\'\-]+?)\s*(?:\(s\))?\s*-\s*(?P<origin>[A-Za-z\s\.,\'\-]+?)\s*-\s*(?P<cargo>[^-]+?)\s*-\s*(?P<merchant>.+?)$`
with groups ship=1, origin=2, cargo=3, merchant=4 (the leading `[A-Z]`
matches any ASCII letter because of IGNORECASE). -/
def condensedDashRE : RE := seqs [
  RE.grp 1 (RE.seq (RE.cls isAsciiAlphaC) (RE.repCls shipClassC 1 none true)),
  ws0, steamerOptR, ws0, chrR '-', ws0,
  RE.grp 2 (RE.repCls stdOriginClassC 1 none true),
  ws0, chrR '-', ws0,
  RE.grp 3 (RE.repCls notDashC 1 none true),
  ws0, chrR '-', ws0,
  RE.grp 4 (RE.repCls dotAnyC 1 none true),
  RE.eos]

/-- `port_header_pattern`: `^([A-Z\s&\.\'\(\)]+)\.\s*$`. -/
def portHeaderRE : RE := seqs [
  RE.grp 1 (RE.repCls portHeaderClassC 1 none false), chrR '.', ws0, RE.eos]

/-- `date_header_pattern`: `^(?P<month>\w{3,9})\.\s+(?P<day>\d{1,2})\.?\s*$`
with groups month=1, day=2. -/
def dateHeaderRE : RE := seqs [
  RE.grp 1 (RE.repCls isWordC 3 (some 9) false), chrR '.', ws1,
  RE.grp 2 (RE.repCls isDigitC 1 (some 2) false), optR (chrR '.'), ws0, RE.eos]

/-- The inline dispatch guard `re.match(r'^\w+\.\s+\d{1,2}\s+', line)` that
gates the standard-dash attempt. -/
def stdGuardRE : RE := seqs [
  RE.repCls isWordC 1 none false, chrR '.', ws1,
  RE.repCls isDigitC 1 (some 2) false, ws1]

/-! ## `tools/ttj_parser_v3.py` — encoding fixes, skip lists, data model -/

/-- `ENCODING_FIXES` in source (dict) order: complete port names first, then
the two-character mojibake patterns used by the replacement loop. -/
def ENCODING_FIXES : List (Str × Str) := [
  ("GÃ¤vle".data, "Gävle".data),
  ("VÃ¤stervik".data, "Västervik".data),
  ("MÃ¶nsterÃ¥s".data, "Mönsterås".data),
  ("TimrÃ¥".data, "Timrå".data),
  ("VilagarcÃ­a de Arousa".data, "Vilagarcía de Arousa".data),
  ("A CoruÃ±a".data, "A Coruña".data),
  ("TÃ¸nsberg".data, "Tønsberg".data),
  ("Trois-RiviÃ¨res".data, "Trois-Rivières".data),
  ("Pont-l\x27Abbé".data, "Pont-l\x27Abbé".data),
  ("Â Saint-Brieuc".data, "Saint-Brieuc".data),
  ("Â Saint-Brieuc".data, "Saint-Brieuc".data),
  ("Ã¤".data, "ä".data),
  ("Ã¶".data, "ö".data),
  ("Ã¥".data, "å".data),
  ("Ã¸".data, "ø".data),
  ("Ã±".data, "ñ".data),
  ("Ã©".data, "é".data),
  ("Ã¨".data, "è".data),
  ("Ã­".data, "í".data)]

/-- `fix_encoding` on a (non-`None`, non-empty) string: exact table lookup
first, then the replacement loop over the short (≤ 3 character) keys, in
table order. -/
def fixEncodingS (t : Str) : Str :=
  match lookupA ENCODING_FIXES t with
  | some v => v
  | none =>
    ENCODING_FIXES.foldl
      (fun acc kv => if kv.1.length ≤ 3 then pyReplace acc kv.1 kv.2 else acc) t

/-- `fix_encoding(text)`: `None` and falsy strings are returned unchanged. -/
def fix_encoding : Option Str → Option Str
  | none => none
  | some t => if !truthyS t then some t else some (fixEncodingS t)

/-- `origin_port = fix_encoding(origin_port) if origin_port else origin_port`
(and likewise for the destination): apply the fix only to truthy strings. -/
def fixIfTruthy (s : Str) : Str := if truthyS s then fixEncodingS s else s

/-- `SKIP_HEADERS` (non-port headers), in source order. -/
def SKIP_HEADERS : List Str := [
  "TIMBER TRADES JOURNAL".data, "TIMBER TRADES\x27 JOURNAL".data, "ADES JOURNAL".data,
  "ENGLAND AND WALES".data, "SCOTLAND".data, "IRELAND".data, "SCOTCH SUPPLEMENT".data,
  "IMPORTS".data, "REVIEWS".data, "FREIGHTS".data, "FAILURES AND ARRANGEMENTS".data,
  "LIQUIDATIONS".data, "ERRATUM".data, "TRADE ITEMS".data, "CREDITOR PARTLY SECURED".data,
  "ACCEPTED TENDERS".data, "LONDON DOCK DELIVERIES".data, "ARRIVALS".data,
  "PINE".data, "SPRUCE".data, "PITCH PINE".data, "OAK".data, "OAK TIMBER".data,
  "MAHOGANY".data, "ASH".data,
  "LATHWOOD".data, "WEATHERBOARDS".data, "SLATING BATTENS".data, "MOULDING".data,
  "MOULDINGS".data,
  "VENEERS".data, "SLAB BOARDS".data, "POLES".data, "SPARS".data, "DECK DEALS".data,
  "LATHS".data,
  "PLASTERERS\x27 LATHS".data, "BEAD".data, "TORUS SKIRTING".data, "DEAL".data,
  "ERABLE".data,
  "HEWN BALK".data, "AHOGANY".data,
  "CONTRACTS OPEN".data, "TRADE MARK".data,
  "ILLUSTRATED CATALOGUES FREE ON APPLICATION".data,
  "POST FREE ON APPLICATION".data, "EXPORT ORDERS PROMPTLY EXECUTED".data,
  "WRITE FOR CATALOGUE".data, "DETAILED SPECIFICATION ON APPLICATION".data,
  "COUNTRY ORDERS RECEIVE PROMPT ATTENTION".data, "SEND FOR REFERENCES TO USERS".data,
  "REGISTERED BRAND".data, "SILVER MEDAL".data, "CIRCULAR SAWS".data, "IN THE WORLD".data,
  "SPECIFICATIONS OF THE FOLLOWING HAVE BEEN PUBLISHED".data,
  "EVERY DESCRIPTION OF BALTIC AND AMERICAN TIMBER".data,
  "VENEERS OF ALL KINDS".data, "AND ALL VARIETIES OF FANCY WOODS".data,
  "EVERY DESCRIPTION OF WOOD ALWAYS IN STOCK".data,
  "PREPARED FROM THE DIMENSIONS STATED".data,
  "EXPORTERS AMERICAN HARDWOOD LUMBER".data,
  "AUSTRALIAN TIMBER TRADE".data, "TIMBER FROM CORSICA".data,
  "SEEDLING AND TRANSPLANTED FOREST TREES".data,
  "HORTICULTURAL TIMBER MERCHANT".data, "THE STANDARD TIMBER MEASURER".data,
  "GANDY\x27S PATENT COTTON BELTING".data, "THE GANDY BELT".data,
  "MAURICE GANDY".data, "THOMAS ROEBUCK & COMPANY (LIMITED)".data,
  "JOSEPH GARDNER & SONS".data, "ROBERT PARKER & CO".data, "LAVY BROS".data,
  "AT NEW ORLEANS".data, "THE MISSISSIPPI VALLEY".data, "THE HAWAIIAN ISLANDS".data,
  "BRANCH YARD AT NEWBURGH".data, "AT THE MILLWALL DOCKS".data, "AT AVONMOUTH".data,
  "BY SURREY COMMERCIAL DOCKS".data,
  "R. M".data, "R & CO".data, "H".data, "A".data, "ONE".data, "EST".data,
  "TONE".data, "BURGH".data,
  "J. H. ROW... AU".data, "B. & F. S. WHARF".data, "B. & F. WHARF".data,
  "Y COMMERCIAL DOCKS".data, "COLUMBIA".data, "MILWALL".data]

/-- `self.uk_cities`. -/
def uk_cities : List Str := [
  "LONDON".data, "LIVERPOOL".data, "GLASGOW".data, "GREENOCK".data,
  "GRANGEMOUTH".data,
  "LEITH".data, "DUNDEE".data, "ABERDEEN".data, "BRISTOL".data, "CARDIFF".data,
  "HULL".data,
  "NEWCASTLE".data, "SUNDERLAND".data, "MIDDLESBROUGH".data, "HARTLEPOOL".data,
  "MANCHESTER".data, "GOOLE".data, "GRIMSBY".data, "SOUTHAMPTON".data,
  "PLYMOUTH".data,
  "BELFAST".data, "DUBLIN".data, "CORK".data, "BARROW".data, "PRESTON".data]

/-- `self.dock_keywords`. -/
def dock_keywords : List Str := [
  "DOCK".data, "DOCKS".data, "WHARF".data, "WHARVES".data, "PIER".data, "QUAY".data]

def anySkipHeader (port_upper : Str) : Bool :=
  SKIP_HEADERS.any (fun sk => containsSub port_upper sk)

def anyDockKeyword (port_upper : Str) : Bool :=
  dock_keywords.any (fun kw => containsSub port_upper kw)

inductive RecordFormat where
  | early_at : RecordFormat
  | standard_dash : RecordFormat
  | condensed : RecordFormat
  | unknown : RecordFormat
deriving DecidableEq, Repr

/-- `ShipRecord` (dataclass).  The provenance fields `preceding_context`,
`arrival_date` and the filename-derived `publication_year/month/day` are
outside every claim and are omitted from the embedding. -/
structure ShipRecord where
  raw_line : Str
  line_number : Nat
  ship_name : Option Str := none
  origin_port : Option Str := none
  destination_port : Option Str := none
  cargo : Option Str := none
  merchant : Option Str := none
  day : Option Nat := none
  month : Option Str := none
  year : Option Nat := none
  is_steamship : Bool := false
  format_type : Option RecordFormat := none
  confidence : ℚ := 0
deriving DecidableEq, Repr

/-- Persistent context of `TTJContextParser` (`current_port`, `current_city`,
`current_month`, `current_day`). -/
structure PState where
  current_port : Option Str := none
  current_city : Option Str := none
  current_month : Option Str := none
  current_day : Option Nat := none
deriving DecidableEq, Repr

/-- Loop body of `extract_port_from_context`, scanning the context lines
backwards while remembering a pending city header. -/
def extractPortGo : List Str → Option Str → Option Str
  | [], _ => none
  | l :: rest, city_context =>
    let l := pyStrip l
    match reMatch portHeaderRE l with
    | none => extractPortGo rest city_context
    | some caps =>
      let port := pyRstripDot ((getG caps 1).getD [])
      let port_upper := upperS port
      if port.length > 2 && !(reMatch (RE.cls isDigitC) port).isSome &&
          !anySkipHeader port_upper then
        if uk_cities.contains port_upper then extractPortGo rest (some port)
        else if anyDockKeyword port_upper then
          some (match city_context with
                | some c => c ++ (' ' :: '(' :: port) ++ [')']
                | none => port)
        else some port
      else extractPortGo rest city_context

/-- `extract_port_from_context`. -/
def extract_port_from_context (context_lines : List Str) : Option Str :=
  extractPortGo context_lines.reverse none

/-- Loop body of `extract_date_from_context`. -/
def extractDateGo : List Str → Option Str × Option Nat
  | [] => (none, none)
  | l :: rest =>
    let l := pyStrip l
    match reMatch dateHeaderRE l with
    | some caps => (getG caps 1, some (strToNat ((getG caps 2).getD [])))
    | none => extractDateGo rest

/-- `extract_date_from_context`. -/
def extract_date_from_context (context_lines : List Str) : Option Str × Option Nat :=
  extractDateGo context_lines.reverse

/-- The pattern dispatch of `parse_line_with_context`: early @-format when
the line contains `@`, then the standard dash format gated by the
`^\w+\.\s+\d{1,2}\s+` guard, then the condensed dash format when the line
contains `-`; first success wins. -/
def matchAttempt (line : Str) : Option (RecordFormat × Caps) :=
  let m1 : Option (RecordFormat × Caps) :=
    if containsChar line '@' then
      (reMatch earlyAtRE line).map (fun g => (RecordFormat.early_at, g))
    else none
  match m1 with
  | some x => some x
  | none =>
    let m2 : Option (RecordFormat × Caps) :=
      if (reMatch stdGuardRE line).isSome then
        (reMatch standardDashRE line).map (fun g => (RecordFormat.standard_dash, g))
      else none
    match m2 with
    | some x => some x
    | none =>
      if containsChar line '-' then
        (reMatch condensedDashRE line).map (fun g => (RecordFormat.condensed, g))
      else none

def monthIdx : RecordFormat → Option Nat
  | .early_at => some 1
  | .standard_dash => some 1
  | _ => none

def dayIdx : RecordFormat → Option Nat
  | .early_at => some 2
  | .standard_dash => some 2
  | _ => none

def shipIdx : RecordFormat → Option Nat
  | .early_at => some 3
  | .standard_dash => some 3
  | .condensed => some 1
  | .unknown => none

def originIdx : RecordFormat → Option Nat
  | .early_at => some 4
  | .standard_dash => some 4
  | .condensed => some 2
  | .unknown => none

def cargoIdx : RecordFormat → Option Nat
  | .early_at => some 5
  | .standard_dash => some 5
  | .condensed => some 3
  | .unknown => none

/-- Group index of `merchant`; `none` for the early @-format, whose group
dict has no `merchant` key (`'merchant' in groups` is false). -/
def merchantIdx : RecordFormat → Option Nat
  | .standard_dash => some 6
  | .condensed => some 4
  | _ => none

def groupOf (caps : Caps) (oi : Option Nat) : Option Str := oi.bind (getG caps)

/-- The destination port a record receives at build time:
`extract_port_from_context` over the preceding lines, passed through
`fix_encoding` when truthy.  A function of the context lines alone. -/
def contextDestination (context_lines : List Str) : Option Str :=
  match extract_port_from_context context_lines with
  | some s => if truthyS s then some (fixEncodingS s) else some s
  | none => none

/-- Record construction of `parse_line_with_context` after a successful
pattern match (`line` is already stripped). -/
def buildRecord (line : Str) (context_lines : List Str) (line_number : Nat)
    (year : Option Nat) (fmt : RecordFormat) (caps : Caps) : ShipRecord :=
  let ship_name := pyStrip ((groupOf caps (shipIdx fmt)).getD [])
  let origin_port := pyStrip ((groupOf caps (originIdx fmt)).getD [])
  let cargo := pyStrip ((groupOf caps (cargoIdx fmt)).getD [])
  let merchant : Option Str :=
    match merchantIdx fmt with
    | some i => some (pyStrip ((getG caps i).getD []))
    | none => none
  let origin_port := fixIfTruthy origin_port
  let dayG : Option Str := groupOf caps (dayIdx fmt)
  let monthG : Option Str := groupOf caps (monthIdx fmt)
  let ctxDate : Option Str × Option Nat :=
    if !truthyOS dayG || !truthyOS monthG then extract_date_from_context context_lines
    else (none, none)
  let month : Option Str := if !truthyOS monthG then ctxDate.1 else monthG
  let day : Option Nat :=
    if truthyOS dayG then some (strToNat (dayG.getD []))
    else if truthyON ctxDate.2 then ctxDate.2 else none
  let destination_port := contextDestination context_lines
  let is_steamship := containsSub line "(s)".data
  let ship_name := pyStrip (pyReplace ship_name "(s)".data [])
  { raw_line := line, line_number := line_number,
    ship_name := some ship_name, origin_port := some origin_port,
    destination_port := destination_port, cargo := some cargo,
    merchant := merchant, day := day, month := month, year := year,
    is_steamship := is_steamship, format_type := some fmt,
    confidence := if truthyOS destination_port then 1 else mkRat 7 10 }

/-- `parse_line_with_context`. -/
def parse_line_with_context (line : Str) (context_lines : List Str)
    (line_number : Nat) (year : Option Nat) : Option ShipRecord :=
  let line := pyStrip line
  if !truthyS line || (reMatch portHeaderRE line).isSome then none
  else
    match matchAttempt line with
    | none => none
    | some (fmt, caps) => some (buildRecord line context_lines line_number year fmt caps)

/-- One iteration of the `parse_file` loop: update the persistent port/city
context on a port header (and skip the line), update the persistent date on
a date header, otherwise parse the line with the last four stripped lines
as immediate context and apply the persistent-context fallbacks to an
emitted record. -/
def fileStep (st : PState) (prev : List Str) (line : Str) (i : Nat)
    (year : Option Nat) : Option ShipRecord × PState :=
  let ls := pyStrip line
  match reMatch portHeaderRE ls with
  | some caps =>
    let cand := pyRstripDot ((getG caps 1).getD [])
    let pu := upperS cand
    let st' :=
      if !anySkipHeader pu then
        if uk_cities.contains pu then { st with current_city := some cand }
        else if anyDockKeyword pu then
          { st with current_port := some (match st.current_city with
              | some c => c ++ (' ' :: '(' :: cand) ++ [')']
              | none => cand) }
        else { st with current_port := some cand, current_city := none }
      else st
    (none, st')
  | none =>
    let st :=
      match reMatch dateHeaderRE ls with
      | some caps =>
        { st with current_month := getG caps 1,
                  current_day := some (strToNat ((getG caps 2).getD [])) }
      | none => st
    let context_lines := lastN 4 prev
    match parse_line_with_context line context_lines (i + 1) year with
    | none => (none, st)
    | some r =>
      let r := if !truthyOS r.destination_port && truthyOS st.current_port then
                 { r with destination_port := st.current_port, confidence := mkRat 9 10 }
               else r
      let r := if !truthyOS r.month && truthyOS st.current_month then
                 { r with month := st.current_month }
               else r
      let r := if !truthyON r.day && truthyON st.current_day then
                 { r with day := st.current_day }
               else r
      let st := { st with
        current_month := if truthyOS r.month then r.month else st.current_month,
        current_day := if truthyON r.day then r.day else st.current_day }
      (some r, st)

/-- The `parse_file` loop over a list of raw lines (file reading and the
filename-derived publication date are outside the embedding), threading the
persistent context and the list of already-seen stripped lines. -/
def parseLinesAux (year : Option Nat) :
    List Str → PState → List Str → Nat → List ShipRecord × PState
  | [], st, _, _ => ([], st)
  | l :: rest, st, prev, i =>
    let p := fileStep st prev l i year
    let q := parseLinesAux year rest p.2 (prev ++ [pyStrip l]) (i + 1)
    (p.1.toList ++ q.1, q.2)

/-- `parse_file` on an in-memory document: parse `lines` in order starting
from persistent context `st`. -/
def parseLines (lines : List Str) (year : Option Nat) (st : PState) :
    List ShipRecord × PState :=
  parseLinesAux year lines st [] 0

/-! ## `tools/cargo_parser.py` — the cargo-field segmenter -/

/-- `CargoItem` (dataclass). -/
structure CargoItem where
  quantity : Option Str := none
  unit : Option Str := none
  commodity : Str := []
  merchant : Option Str := none
  raw_text : Str := []
deriving DecidableEq, Repr

/-- `[a-z\s\-&]` of the cargo patterns (IGNORECASE). -/
def cargoWordClassC (c : Char) : Bool :=
  isAsciiAlphaC c || pyIsSpace c || c == '-' || c == '&'

/-- `\d+[,\d]*` — quantity with optional commas (group 1 of both item
patterns). -/
def quantityRE : RE :=
  RE.seq (RE.repCls isDigitC 1 none false)
    (RE.repCls (fun c => isDigitC c || c == ',') 0 none false)

/-- `item_with_unit_pattern`:
`(\d+[,\d]*)\s+([a-z]{1,6}\.)\s+([a-z\s\-&]+)` with IGNORECASE;
groups quantity=1, unit=2 (with its period), commodity=3. -/
def itemWithUnitRE : RE := seqs [
  RE.grp 1 quantityRE,
  ws1,
  RE.grp 2 (RE.seq (RE.repCls isAsciiAlphaC 1 (some 6) false) (chrR '.')),
  ws1,
  RE.grp 3 (RE.repCls cargoWordClassC 1 none false)]

/-- `item_no_unit_pattern`:
`(\d+[,\d]*)\s+([a-z][a-z\s\-&]{2,25}?)(?=,|;|\.|\s+[A-Z]|$)` with
IGNORECASE (so the boundary `[A-Z]` matches any ASCII letter);
groups quantity=1, commodity=2. -/
def itemNoUnitRE : RE := seqs [
  RE.grp 1 quantityRE,
  ws1,
  RE.grp 2 (RE.seq (RE.cls isAsciiAlphaC) (RE.repCls cargoWordClassC 2 (some 25) true)),
  RE.look (RE.alt (chrR ',') (RE.alt (chrR ';') (RE.alt (chrR '.')
    (RE.alt (RE.seq ws1 (RE.cls isAsciiAlphaC)) RE.eos))))]

/-- The merchant search pattern inside `parse_cargo_string`:
`,\s*([A-Z][A-Za-z\s\.\&\'\-]+?)(?:;|$)` (no IGNORECASE). -/
def merchantSearchRE : RE := seqs [
  chrR ',', ws0,
  RE.grp 1 (RE.seq (RE.cls isAsciiUpperC) (RE.repCls shipClassC 1 none true)),
  RE.alt (chrR ';') RE.eos]

/-- `re.findall(item_with_unit_pattern, segment)` as (quantity, unit,
commodity) triples. -/
def findWithUnit (segment : Str) : List (Str × Str × Str) :=
  (findAll itemWithUnitRE segment).map (fun g =>
    ((getG g 1).getD [], (getG g 2).getD [], (getG g 3).getD []))

/-- `re.findall(item_no_unit_pattern, segment)` as (quantity, commodity)
pairs. -/
def findNoUnit (segment : Str) : List (Str × Str) :=
  (findAll itemNoUnitRE segment).map (fun g =>
    ((getG g 1).getD [], (getG g 2).getD []))

/-- Merchant extraction of `parse_cargo_string`: search for a trailing
`", Name"` clause, strip it, drop a trailing period, and reject known
placeholders and all-commodity-word candidates. -/
def extractMerchant (segment : Str) : Option Str :=
  match reSearchAux merchantSearchRE segment with
  | none => none
  | some g =>
    let cand := pyRstripDot (pyStrip ((getG g 1).getD []))
    if ["order".data, "nil".data, "ditto".data].any
        (fun w => containsSub (lowerS cand) w) then none
    else
      let commodity_words : List Str :=
        ["deals".data, "timber".data, "boards".data, "staves".data,
         "battens".data, "planks".data, "logs".data]
      if (pySplitWs cand).all (fun w => commodity_words.contains (lowerS w)) then none
      else some cand

/-- The commodity keywords of the no-quantity fallback branch. -/
def fallbackKeywords : List Str :=
  ["deals".data, "timber".data, "boards".data, "battens".data, "staves".data,
   "mahogany".data, "cedar".data, "oak".data, "pine".data, "firewood".data,
   "laths".data, "planks".data]

/-- Matches of one segment merged as (quantity, optional unit, commodity):
unit matches first, then no-unit matches whose quantity does not occur
inside the quantity of some unit match (the double-counting filter). -/
def segmentMatches (segment : Str) : List (Str × Option Str × Str) :=
  let matches_with_unit := findWithUnit segment
  let matches_no_unit := findNoUnit segment
  matches_with_unit.map (fun m => (m.1, some m.2.1, m.2.2)) ++
    (matches_no_unit.filter
      (fun m => !(matches_with_unit.any (fun um => containsSub um.1 m.1)))).map
      (fun m => (m.1, none, m.2))

/-- Item construction of `parse_cargo_string` for one quantity match:
commas removed from the quantity, unit lower-cased with its trailing
period(s) stripped, commodity stripped and lower-cased, `raw_text`
truncated to 100 characters. -/
def buildCargoItem (segment : Str) (merchant : Option Str)
    (m : Str × Option Str × Str) : CargoItem :=
  { quantity := some (pyReplace m.1 [','] []),
    unit := m.2.1.map (fun u => pyRstripDot (lowerS u)),
    commodity := lowerS (pyStrip m.2.2),
    merchant := merchant,
    raw_text := segment.take 100 }

/-- Per-segment body of `parse_cargo_string`: skip short segments, emit the
merged quantity matches with the segment-scoped merchant, or fall back to a
single keyword item. -/
def parseSegment (segment : Str) : List CargoItem :=
  let segment := pyStrip segment
  if !truthyS segment || segment.length < 5 then []
  else
    match segmentMatches segment with
    | [] =>
      match fallbackKeywords.find? (fun kw => containsSub (lowerS segment) kw) with
      | some kw =>
        [{ quantity := none, unit := none, commodity := kw, merchant := none,
           raw_text := segment.take 100 }]
      | none => []
    | ms => ms.map (buildCargoItem segment (extractMerchant segment))

/-- `CargoParser.parse_cargo_string`. -/
def parse_cargo_string (cargo : Str) : List CargoItem :=
  if !truthyS cargo || cargo.length < 3 then []
  else
    let cargo := pyStrip (pyLstripDashes cargo)
    (splitChar ';' cargo).flatMap parseSegment

/-! ## `difflib.SequenceMatcher` (as used by `PortNormalizer.similarity`)

`SequenceMatcher(None, a, b).ratio()` with `isjunk=None`: `b2j` maps each
character of `b` to its ascending positions, dropping "popular" characters
when `len(b) ≥ 200` (autojunk); `find_longest_match` is the standard
dynamic-programming pass followed by the non-junk extension loops (the junk
extension loops are identities because the junk set is empty); the ratio is
`2*M/(len(a)+len(b))` with `M` the total size of all matching blocks, and
`1` when both strings are empty.  Scores are modelled as exact rationals;
the float thresholds 0.92/0.85/0.70 of the caller compare identically,
since the achievable ratios are spaced far wider than double precision. -/

def positionsOf (b : Str) (c : Char) : List Nat :=
  (b.enum.filter (fun p => p.2 == c)).map (·.1)

def b2jGet (b : Str) (c : Char) : List Nat :=
  let idxs := positionsOf b c
  if b.length ≥ 200 && idxs.length > b.length / 100 + 1 then [] else idxs

def j2get (m : List (Nat × Nat)) (j : Nat) : Nat :=
  ((m.find? (fun p => p.1 == j)).map (·.2)).getD 0

/-- Inner loop of `find_longest_match` for one row `i`: walk the positions
of `a[i]` in `b`, building the new run-length map and updating the best
(earliest-longest) block. -/
def flmRow (j2len : List (Nat × Nat)) (i : Nat) (js : List Nat)
    (best : Nat × Nat × Nat) : List (Nat × Nat) × (Nat × Nat × Nat) :=
  js.foldl
    (fun acc j =>
      let k := (if j = 0 then 0 else j2get j2len (j - 1)) + 1
      let best := if k > acc.2.2.2 then (i + 1 - k, j + 1 - k, k) else acc.2
      ((j, k) :: acc.1, best))
    ([], best)

def flmRows (a b : Str) (blo bhi : Nat) :
    List Nat → List (Nat × Nat) → (Nat × Nat × Nat) → Nat × Nat × Nat
  | [], _, best => best
  | i :: is, j2len, best =>
    let js := ((b2jGet b (a.getD i ' ')).filter (fun j => blo ≤ j)).takeWhile
      (fun j => j < bhi)
    let rb := flmRow j2len i js best
    flmRows a b blo bhi is rb.1 rb.2

/-- The first extension loop: grow the best block leftwards over equal
(non-junk) characters (structural recursion on `i`, which the loop
decrements while `alo < i`). -/
def extendLeft (a b : Str) (alo blo : Nat) : Nat → Nat → Nat → Nat × Nat × Nat
  | 0, j, k => (0, j, k)
  | i + 1, j, k =>
    if alo < i + 1 ∧ blo < j ∧ (a.getD i ' ' == b.getD (j - 1) ' ') = true then
      extendLeft a b alo blo i (j - 1) (k + 1)
    else (i + 1, j, k)

/-- Iterations of the second (rightwards) extension loop; each one requires
`i + k < ahi`, so `fuel = ahi` is always enough. -/
def extendRightAux (a b : Str) (ahi bhi i j : Nat) : Nat → Nat → Nat
  | 0, k => k
  | fuel + 1, k =>
    if i + k < ahi ∧ j + k < bhi ∧ (a.getD (i + k) ' ' == b.getD (j + k) ' ') = true then
      extendRightAux a b ahi bhi i j fuel (k + 1)
    else k

/-- The second extension loop: grow the best block rightwards. -/
def extendRight (a b : Str) (ahi bhi i j : Nat) (k : Nat) : Nat :=
  extendRightAux a b ahi bhi i j ahi k

/-- `find_longest_match(alo, ahi, blo, bhi)`. -/
def flm (a b : Str) (alo ahi blo bhi : Nat) : Nat × Nat × Nat :=
  let best := flmRows a b blo bhi (List.range' alo (ahi - alo)) [] (alo, blo, 0)
  let e := extendLeft a b alo blo best.1 best.2.1 best.2.2
  let k := extendRight a b ahi bhi e.1 e.2.1 e.2.2
  (e.1, e.2.1, k)

/-- Total size of all matching blocks (the `matches` count of
`get_matching_blocks`, obtained by recursive splitting around each longest
match; the queue order of difflib does not affect the sum). -/
def smTotal (a b : Str) : Nat → Nat → Nat → Nat → Nat → Nat
  | 0, _, _, _, _ => 0
  | fuel + 1, alo, ahi, blo, bhi =>
    let r := flm a b alo ahi blo bhi
    if r.2.2 = 0 then 0
    else
      smTotal a b fuel alo r.1 blo r.2.1 + r.2.2 +
        smTotal a b fuel (r.1 + r.2.2) ahi (r.2.1 + r.2.2) bhi

/-- `SequenceMatcher(None, a, b).ratio()` as an exact rational. -/
def smScore (a b : Str) : ℚ :=
  if a.length + b.length = 0 then 1
  else mkRat (2 * (smTotal a b (a.length + b.length + 1) 0 a.length 0 b.length))
    (a.length + b.length)

/-! ## `tools/normalize_with_authority_review.py` — `PortNormalizer` -/

/-- `PortNormalizer.similarity`:
`SequenceMatcher(None, s1.lower(), s2.lower()).ratio()`. -/
def similarity (s1 s2 : Str) : ℚ := smScore (lowerS s1) (lowerS s2)

/-- The hard-coded `origin_variant_map` of `PortNormalizer.__init__`,
in source order. -/
def originVariantTable : List (Str × Str) := [
  ("Cronstadt".data, "Kronstadt".data),
  ("Cronstad".data, "Kronstadt".data),
  ("G\x27burg".data, "Gothenburg".data),
  ("G\x27berg".data, "Gothenburg".data),
  ("F\x27stad".data, "Fredrikstad".data),
  ("Fred\x27stad".data, "Fredrikstad".data),
  ("Fredrikstadt".data, "Fredrikstad".data),
  ("Frederikstad".data, "Fredrikstad".data),
  ("Frederickstad".data, "Fredrikstad".data),
  ("Fredrikshald".data, "Halden".data),
  ("Frederikshald".data, "Halden".data),
  ("Frederickshald".data, "Halden".data),
  ("Hernosand".data, "Harnosand".data),
  ("Hudiksvall".data, "Hudikswall".data),
  ("Dantzic".data, "Danzig".data),
  ("Dantzig".data, "Danzig".data),
  ("Danzic".data, "Danzig".data),
  ("Windau".data, "Ventspils".data),
  ("Libau".data, "Liepāja".data),
  ("Wyburg".data, "Wyborg".data),
  ("St. John, N.B.".data, "St. John".data),
  ("St. John\x27s, N.B.".data, "St. John".data),
  ("St. John, N. B.".data, "St. John".data),
  ("St. Johns".data, "St. John".data),
  ("Halifax, N.S.".data, "Halifax".data),
  ("Charlotte Town".data, "Charlottetown".data),
  ("Krageroe".data, "Kragero".data),
  ("Finklippan".data, "Finnklippan".data),
  ("Swartvik".data, "Svartvik".data),
  ("Swartwick".data, "Svartvik".data),
  ("Swartwik".data, "Svartvik".data),
  ("Westervik".data, "Västervik".data),
  ("Westerwik".data, "Västervik".data),
  ("Uddewalla".data, "Uddevalla".data),
  ("Halmstadt".data, "Halmstad".data),
  ("Jacobstad".data, "Jakobstad".data),
  ("Carlshamn".data, "Karlshamn".data),
  ("Bergqvara".data, "Bergkvara".data),
  ("Ornskjoldsvik".data, "Örnsköldsvik".data),
  ("Ornskoldsvik".data, "Örnsköldsvik".data),
  ("Holmstrand".data, "Holmestrand".data),
  ("Grimstadt".data, "Grimstad".data)]

/-- The hard-coded `dest_variant_map` of `PortNormalizer.__init__`. -/
def destVariantTable : List (Str × Str) := [
  ("Glasglow".data, "Glasgow".data),
  ("Grangmouth".data, "Grangemouth".data),
  ("Plymouh".data, "Plymouth".data),
  ("Lonon".data, "London".data)]

/-- `PortNormalizer` state: the externally supplied canonical lists and the
hard-coded variant tables.  The memoization caches are omitted from the
embedding: they store, keyed by the raw string, exactly the value the pure
computation below returns, so every result is unchanged. -/
structure PortNormalizer where
  canonical_origin : List Str
  canonical_dest : List Str
  origin_variant_map : List (Str × Str)
  dest_variant_map : List (Str × Str)
deriving DecidableEq, Repr

/-- `PortNormalizer.__init__(canonical_origin_ports, canonical_dest_ports)`:
stores the canonical lists and the hard-coded variant tables verbatim; no
validation of any kind is performed. -/
def PortNormalizer.init (co cd : List Str) : PortNormalizer :=
  { canonical_origin := co, canonical_dest := cd,
    origin_variant_map := originVariantTable, dest_variant_map := destVariantTable }

inductive PortType where
  | origin : PortType
  | destination : PortType
deriving DecidableEq, Repr

inductive Tier where
  | exact : Tier
  | variant : Tier
  | fuzzy_high : Tier
  | fuzzy_medium : Tier
  | fuzzy_low : Tier
  | error : Tier
  | unmapped : Tier
deriving DecidableEq, Repr

/-- The `(normalized_port, confidence_score, normalization_tier)` triple
returned by `normalize_port`. -/
structure NormResult where
  value : Option Str
  confidence : ℚ
  tier : Tier
deriving DecidableEq, Repr

def journalMarkers : List Str := [
  "TIMBER TRADES JOURNAL".data, "JOURNAL".data, "IMPORTS".data, "EXPORTS".data,
  "FREIGHTS".data, "FAILURES".data, "LIQUIDATIONS".data, "DIVIDENDS".data]

def originCommodityWords : List Str := [
  "deals".data, "timber".data, "staves".data, "lathwood".data, "pitwood".data,
  "props".data, "battens".data, "boards".data]

/-- `PortNormalizer.is_obvious_error`. -/
def is_obvious_error (port : Str) (pt : PortType) : Bool :=
  if !truthyS port || !truthyS (pyStrip port) then true
  else
    let port := pyStrip port
    if port.length ≤ 2 && !(["Mo".data, "Mo.".data].contains port) then true
    else if ["---".data, "--".data, "-".data, ".".data, "&".data, "and".data,
        "or".data].contains port then true
    else if port.length > 150 then true
    else if journalMarkers.any (fun m => containsSub (upperS port) m) then true
    else if pt == PortType.origin && originCommodityWords.contains (lowerS port) then
      true
    else false

/-- Loop body of the fuzzy passes of `normalize_port`: update the running
`(best_score, best_match)` on a strictly greater similarity. -/
def fuzzyStep (port : Str) (acc : ℚ × Option Str) (c : Str) : ℚ × Option Str :=
  let score := similarity port c
  if score > acc.1 then (score, some c) else acc

/-- One fuzzy pass of `normalize_port`: fold over the canonical list with
`best_score` initialised to the threshold, updating on a strictly greater
similarity. -/
def fuzzyBest (port : Str) (thr : ℚ) (canonical : List Str) : ℚ × Option Str :=
  canonical.foldl (fuzzyStep port) (thr, none)

/-- The three fuzzy passes of `normalize_port` (thresholds 0.92, 0.85, then
unbounded with the final `> 0.70` check). -/
def fuzzyTiers (port : Str) (canonical : List Str) : NormResult :=
  match fuzzyBest port (mkRat 92 100) canonical with
  | (sc, some m) => ⟨some m, sc, Tier.fuzzy_high⟩
  | (_, none) =>
    match fuzzyBest port (mkRat 85 100) canonical with
    | (sc, some m) => ⟨some m, sc, Tier.fuzzy_medium⟩
    | (_, none) =>
      match fuzzyBest port 0 canonical with
      | (sc, some m) =>
        if sc > mkRat 70 100 then ⟨some m, sc, Tier.fuzzy_low⟩
        else ⟨none, 0, Tier.unmapped⟩
      | (_, none) => ⟨none, 0, Tier.unmapped⟩

/-- The case-insensitive exact-match loop of `normalize_port` (first
canonical entry whose lower case equals the port's lower case). -/
def exactFind (port : Str) (canonical : List Str) : Option Str :=
  canonical.find? (fun c => lowerS port == lowerS c)

/-- `canonical = self.canonical_origin if port_type == 'origin' else self.canonical_dest`. -/
def canonOf (n : PortNormalizer) : PortType → List Str
  | .origin => n.canonical_origin
  | .destination => n.canonical_dest

/-- `variant_map = self.origin_variant_map if port_type == 'origin' else self.dest_variant_map`. -/
def vmapOf (n : PortNormalizer) : PortType → List (Str × Str)
  | .origin => n.origin_variant_map
  | .destination => n.dest_variant_map

/-- `PortNormalizer.normalize_port` (the memoization cache is omitted; see
`PortNormalizer`). -/
def normalize_port (n : PortNormalizer) (port : Str) (pt : PortType) : NormResult :=
  if !truthyS port || !truthyS (pyStrip port) then ⟨none, 0, Tier.error⟩
  else
    let port := pyStrip port
    let canonical := canonOf n pt
    let vmap := vmapOf n pt
    if is_obvious_error port pt then ⟨none, 0, Tier.error⟩
    else
      match exactFind port canonical with
      | some c => ⟨some c, 1, Tier.exact⟩
      | none =>
        match lookupA vmap port with
        | some mapped =>
          match exactFind mapped canonical with
          | some c => ⟨some c, 1, Tier.variant⟩
          | none => fuzzyTiers port canonical
        | none => fuzzyTiers port canonical

/-- A stripped line that begins with a bare day token: one or two digits
followed by whitespace, with no month prefix. -/
def bareDayLead (s : Str) : Bool :=
  match s with
  | c0 :: c1 :: rest =>
    isDigitC c0 && (pyIsSpace c1 ||
      (isDigitC c1 && (match rest with
        | c2 :: _ => pyIsSpace c2
        | [] => false)))
  | _ => false

/-! ## Theorems -/

set_option maxRecDepth 100000

/-- C1, counterexample.  Parsing the two-line document `"LIVERPOOL."` /
`"Sept. 11 Essex (s)-Konigsberg-sleepers-Order"` from a fresh parser emits
no record with destination_port `"Liverpool"` and confidence 0.9 or 1.0:
the city header only sets the pending city context, never the port, so the
record's destination stays unset. -/
theorem c1_counterexample :
    ¬ ∃ r ∈ (parseLines ["LIVERPOOL.".data,
        "Sept. 11 Essex (s)-Konigsberg-sleepers-Order".data] none {}).1,
      r.destination_port = some "Liverpool".data ∧
        (r.confidence = mkRat 9 10 ∨ r.confidence = 1) := by decide

/-- C1 (amended): parsing the two-line document `"LIVERPOOL."` /
`"Sept. 11 Essex (s)-Konigsberg-sleepers-Order"` from a fresh parser with
empty context emits exactly one ShipRecord, with ship_name `"Essex"`,
is_steamship true, origin_port `"Konigsberg"`, cargo `"sleepers"`, merchant
`"Order"` — but destination_port unset (a bare city header such as
`"LIVERPOOL."` sets only the pending city context, not the port) and
confidence 0.7. -/
theorem c1_amended :
    (parseLines ["LIVERPOOL.".data,
      "Sept. 11 Essex (s)-Konigsberg-sleepers-Order".data] none {}).1 =
    [{ raw_line := "Sept. 11 Essex (s)-Konigsberg-sleepers-Order".data,
       line_number := 2,
       ship_name := some "Essex".data,
       origin_port := some "Konigsberg".data,
       destination_port := none,
       cargo := some "sleepers".data,
       merchant := some "Order".data,
       day := some 11, month := some "Sept".data, year := none,
       is_steamship := true,
       format_type := some RecordFormat.standard_dash,
       confidence := mkRat 7 10 }] := by decide

/-- C3, counterexample.  The line `"11 Essex (s)-Konigsberg-sleepers-Order"`
begins with a bare day token, matches the dated-dash pattern itself, and its
remainder after the day matches the condensed-dash pattern — yet the parser
does not resolve it to STANDARD_DASH: it emits nothing at all, because the
dated-dash attempt is gated on a `month.` prefix and the condensed pattern
rejects a leading digit. -/
theorem c3_counterexample :
    bareDayLead (pyStrip "11 Essex (s)-Konigsberg-sleepers-Order".data) = true ∧
    (reMatch standardDashRE "11 Essex (s)-Konigsberg-sleepers-Order".data).isSome = true ∧
    (reMatch condensedDashRE "Essex (s)-Konigsberg-sleepers-Order".data).isSome = true ∧
    parse_line_with_context "11 Essex (s)-Konigsberg-sleepers-Order".data [] 1 none =
      none := by decide

/-- C4, counterexample.  With canonical list `["abcdefghijklmnopqrstuvw01"]`
the raw name `"abcdefghijklmnopqrstuvwxy"` passes the error screen, has no
exact or variant match, and its best similarity is exactly 0.92 — at least
0.92, so the claim demands tier fuzzy_high — yet `normalize_port` returns
tier fuzzy_medium, because the fuzzy_high pass requires a similarity
strictly greater than 0.92. -/
theorem c4_counterexample :
    similarity "abcdefghijklmnopqrstuvwxy".data "abcdefghijklmnopqrstuvw01".data =
      mkRat 23 25 ∧
    mkRat 92 100 ≤ mkRat 23 25 ∧
    normalize_port (PortNormalizer.init ["abcdefghijklmnopqrstuvw01".data] [])
      "abcdefghijklmnopqrstuvwxy".data PortType.origin =
      ⟨some "abcdefghijklmnopqrstuvw01".data, mkRat 23 25, Tier.fuzzy_medium⟩ := by
  decide

/-- C5: segmenting
`"1,300 staves, Nickols & Colven; 41,500 staves, H. & R. Fowler"` yields
exactly two CargoItems — quantities "1300"/"41500", commodity "staves" for
both, merchants "Nickols & Colven" / "H. & R. Fowler" — and no merchant
text inside either commodity field. -/
theorem c5_cargo_conservation :
    parse_cargo_string
      "1,300 staves, Nickols & Colven; 41,500 staves, H. & R. Fowler".data =
    [{ quantity := some "1300".data, unit := none, commodity := "staves".data,
       merchant := some "Nickols & Colven".data,
       raw_text := "1,300 staves, Nickols & Colven".data },
     { quantity := some "41500".data, unit := none, commodity := "staves".data,
       merchant := some "H. & R. Fowler".data,
       raw_text := "41,500 staves, H. & R. Fowler".data }] := by decide

/-- C6, counterexample.  On the matched line
`"Sept. 11 Essex (s)-Konigsberg-Ã¤deals-Order"` the emitted record keeps the
corrupted byte sequence `Ã¤` in its cargo field: `fix_encoding` would map it
to `"ädeals"`, so the EncodingNormalizer was not applied to the cargo text
before emission. -/
theorem c6_counterexample :
    ((parse_line_with_context "Sept. 11 Essex (s)-Konigsberg-Ã¤deals-Order".data
        [] 1 none).map ShipRecord.cargo) = some (some "Ã¤deals".data) ∧
    fix_encoding (some "Ã¤deals".data) = some "ädeals".data ∧
    "Ã¤deals".data ≠ "ädeals".data := by decide

/-- C7, counterexample.  With a canonical origin list missing `"Danzig"`,
the constructed normalizer still contains the now-dangling mapping
`"Dantzic" → "Danzig"` verbatim — construction performs no detection,
filtering or warning — and the mapping is only bypassed later, inside
`normalize_port`, which falls through to the fuzzy tiers. -/
theorem c7_counterexample :
    (PortNormalizer.init ["Gothenburg".data] []).origin_variant_map =
      originVariantTable ∧
    ("Dantzic".data, "Danzig".data) ∈
      (PortNormalizer.init ["Gothenburg".data] []).origin_variant_map ∧
    (normalize_port (PortNormalizer.init ["Gothenburg".data] [])
        "Dantzic".data PortType.origin).tier ≠ Tier.variant := by decide

/-- C8, counterexample.  With canonical origin list `["and"]`, normalizing
`"And"` yields `("and", 1.0, exact)`, but normalizing the returned value
`"and"` again yields `(None, 0.0, error)` — the error screen rejects the
canonical entry itself — so `normalize(normalize(x))` differs from
`normalize(x)` although x was at tier exact. -/
theorem c8_counterexample :
    normalize_port (PortNormalizer.init ["and".data] []) "And".data PortType.origin =
      ⟨some "and".data, 1, Tier.exact⟩ ∧
    normalize_port (PortNormalizer.init ["and".data] []) "and".data PortType.origin =
      ⟨none, 0, Tier.error⟩ := by decide

/-! ### Helper lemmas on characters and strings -/

theorem toNat_ofNat_small {n : Nat} (h : n < 55296) : (Char.ofNat n).toNat = n := by
  have hv : n.isValidChar := Or.inl h
  simp only [Char.ofNat, hv, dif_pos, Char.ofNatAux, Char.toNat, UInt32.toNat]
  exact BitVec.toNat_ofNatLt ..

theorem charEq_toNat (c d : Char) : (c == d) = decide (c.toNat = d.toNat) := by
  cases h : c == d
  · symm
    simp only [decide_eq_false_iff_not]
    intro he
    rw [beq_eq_false_iff_ne] at h
    exact h (Char.eq_of_val_eq (UInt32.ext he))
  · rw [beq_iff_eq] at h
    subst h
    simp

/-! ### C2 — destination only from context -/

theorem buildRecord_dest (line : Str) (ctx : List Str) (n : Nat) (y : Option Nat)
    (fmt : RecordFormat) (caps : Caps) :
    (buildRecord line ctx n y fmt caps).destination_port = contextDestination ctx := by
  simp [buildRecord]

theorem parse_line_dest (line : Str) (ctx : List Str) (n : Nat) (y : Option Nat)
    (r : ShipRecord) (h : parse_line_with_context line ctx n y = some r) :
    r.destination_port = contextDestination ctx := by
  simp only [parse_line_with_context] at h
  split at h
  · cases h
  · cases hm : matchAttempt (pyStrip line) with
    | none => rw [hm] at h; cases h
    | some fc =>
      rw [hm] at h
      obtain ⟨fmt, caps⟩ := fc
      simp only at h
      injection h with h
      subst h
      exact buildRecord_dest _ _ _ _ _ _

/-- C2: any record that one iteration of the `parse_file` loop emits takes
its destination either from the port headers of the immediate context
window (the last four preceding lines) or from the persistent
`current_port`; the destination of the emitted record is never a capture of
the record's own line. -/
theorem c2_destination_only_from_context (st : PState) (prev : List Str)
    (line : Str) (i : Nat) (year : Option Nat) (r : ShipRecord)
    (h : (fileStep st prev line i year).1 = some r) :
    r.destination_port = contextDestination (lastN 4 prev) ∨
    r.destination_port = st.current_port := by
  simp only [fileStep] at h
  cases hph : reMatch portHeaderRE (pyStrip line) with
  | some caps => rw [hph] at h; simp at h
  | none =>
    rw [hph] at h
    cases hp : parse_line_with_context line (lastN 4 prev) (i + 1) year with
    | none => rw [hp] at h; simp at h
    | some r0 =>
      rw [hp] at h
      simp only at h
      injection h with h
      subst h
      have hd := parse_line_dest _ _ _ _ _ hp
      cases hdh : reMatch dateHeaderRE (pyStrip line) with
      | some dcaps =>
        simp only [hdh] at *
        split
        · right; split <;> split <;> simp
        · left; split <;> split <;> simp [hd]
      | none =>
        simp only [hdh] at *
        split
        · right; split <;> split <;> simp
        · left; split <;> split <;> simp [hd]

/-- C2, witness: the record emitted for
`"Sept. 11 Essex (s)-Konigsberg-sleepers-Order"` after the header
`"LIVERPOOL."` takes its (empty) destination from the context. -/
theorem c2_witness :
    ({ raw_line := "Sept. 11 Essex (s)-Konigsberg-sleepers-Order".data,
       line_number := 2,
       ship_name := some "Essex".data,
       origin_port := some "Konigsberg".data,
       destination_port := none,
       cargo := some "sleepers".data,
       merchant := some "Order".data,
       day := some 11, month := some "Sept".data, year := none,
       is_steamship := true,
       format_type := some RecordFormat.standard_dash,
       confidence := mkRat 7 10 } : ShipRecord).destination_port =
      contextDestination (lastN 4 ["LIVERPOOL.".data]) ∨
    ({ raw_line := "Sept. 11 Essex (s)-Konigsberg-sleepers-Order".data,
       line_number := 2,
       ship_name := some "Essex".data,
       origin_port := some "Konigsberg".data,
       destination_port := none,
       cargo := some "sleepers".data,
       merchant := some "Order".data,
       day := some 11, month := some "Sept".data, year := none,
       is_steamship := true,
       format_type := some RecordFormat.standard_dash,
       confidence := mkRat 7 10 } : ShipRecord).destination_port =
      ({} : PState).current_port :=
  c2_destination_only_from_context {} ["LIVERPOOL.".data]
    "Sept. 11 Essex (s)-Konigsberg-sleepers-Order".data 1 none _ (by decide)

/-! ### C6 — which fields receive `fix_encoding` -/

/-- C6 (amended): on every matched line, before the ShipRecord is emitted
the EncodingNormalizer is applied exactly to the origin port (when truthy)
and to the context-derived destination port — while ship name, cargo text
and merchant are emitted as captured, without `fix_encoding`. -/
theorem c6_encoding_applied_to_ports_only (line : Str) (ctx : List Str)
    (n : Nat) (y : Option Nat) (r : ShipRecord)
    (h : parse_line_with_context line ctx n y = some r) :
    ∃ fmt caps, matchAttempt (pyStrip line) = some (fmt, caps) ∧
      r.origin_port =
        some (fixIfTruthy (pyStrip ((groupOf caps (originIdx fmt)).getD []))) ∧
      r.destination_port = contextDestination ctx ∧
      r.cargo = some (pyStrip ((groupOf caps (cargoIdx fmt)).getD [])) ∧
      r.merchant = (merchantIdx fmt).map (fun idx => pyStrip ((getG caps idx).getD [])) ∧
      r.ship_name = some (pyStrip (pyReplace
        (pyStrip ((groupOf caps (shipIdx fmt)).getD [])) "(s)".data [])) := by
  simp only [parse_line_with_context] at h
  split at h
  · cases h
  · cases hm : matchAttempt (pyStrip line) with
    | none => rw [hm] at h; cases h
    | some fc =>
      rw [hm] at h
      obtain ⟨fmt, caps⟩ := fc
      simp only at h
      injection h with h
      subst h
      refine ⟨fmt, caps, rfl, ?_, ?_, ?_, ?_, ?_⟩ <;>
        cases hmi : merchantIdx fmt <;> simp [buildRecord, hmi]

/-- C6, witness: the standard-dash line
`"Sept. 11 Essex (s)-Konigsberg-sleepers-Order"` parsed with empty
context. -/
theorem c6_witness :
    ∃ fmt caps,
      matchAttempt (pyStrip "Sept. 11 Essex (s)-Konigsberg-sleepers-Order".data) =
        some (fmt, caps) ∧
      ({ raw_line := "Sept. 11 Essex (s)-Konigsberg-sleepers-Order".data,
         line_number := 1,
         ship_name := some "Essex".data,
         origin_port := some "Konigsberg".data,
         destination_port := none,
         cargo := some "sleepers".data,
         merchant := some "Order".data,
         day := some 11, month := some "Sept".data, year := none,
         is_steamship := true,
         format_type := some RecordFormat.standard_dash,
         confidence := mkRat 7 10 } : ShipRecord).origin_port =
        some (fixIfTruthy (pyStrip ((groupOf caps (originIdx fmt)).getD []))) ∧
      ({ raw_line := "Sept. 11 Essex (s)-Konigsberg-sleepers-Order".data,
         line_number := 1,
         ship_name := some "Essex".data,
         origin_port := some "Konigsberg".data,
         destination_port := none,
         cargo := some "sleepers".data,
         merchant := some "Order".data,
         day := some 11, month := some "Sept".data, year := none,
         is_steamship := true,
         format_type := some RecordFormat.standard_dash,
         confidence := mkRat 7 10 } : ShipRecord).destination_port =
        contextDestination [] ∧
      ({ raw_line := "Sept. 11 Essex (s)-Konigsberg-sleepers-Order".data,
         line_number := 1,
         ship_name := some "Essex".data,
         origin_port := some "Konigsberg".data,
         destination_port := none,
         cargo := some "sleepers".data,
         merchant := some "Order".data,
         day := some 11, month := some "Sept".data, year := none,
         is_steamship := true,
         format_type := some RecordFormat.standard_dash,
         confidence := mkRat 7 10 } : ShipRecord).cargo =
        some (pyStrip ((groupOf caps (cargoIdx fmt)).getD [])) ∧
      ({ raw_line := "Sept. 11 Essex (s)-Konigsberg-sleepers-Order".data,
         line_number := 1,
         ship_name := some "Essex".data,
         origin_port := some "Konigsberg".data,
         destination_port := none,
         cargo := some "sleepers".data,
         merchant := some "Order".data,
         day := some 11, month := some "Sept".data, year := none,
         is_steamship := true,
         format_type := some RecordFormat.standard_dash,
         confidence := mkRat 7 10 } : ShipRecord).merchant =
        (merchantIdx fmt).map (fun idx => pyStrip ((getG caps idx).getD [])) ∧
      ({ raw_line := "Sept. 11 Essex (s)-Konigsberg-sleepers-Order".data,
         line_number := 1,
         ship_name := some "Essex".data,
         origin_port := some "Konigsberg".data,
         destination_port := none,
         cargo := some "sleepers".data,
         merchant := some "Order".data,
         day := some 11, month := some "Sept".data, year := none,
         is_steamship := true,
         format_type := some RecordFormat.standard_dash,
         confidence := mkRat 7 10 } : ShipRecord).ship_name =
        some (pyStrip (pyReplace
          (pyStrip ((groupOf caps (shipIdx fmt)).getD [])) "(s)".data [])) :=
  c6_encoding_applied_to_ports_only
    "Sept. 11 Essex (s)-Konigsberg-sleepers-Order".data [] 1 none _ (by decide)

/-! ### C9 — `fix_encoding` is the identity away from the fix table -/

theorem isPrefixOfB_self (s : Str) : isPrefixOfB s s = true := by
  induction s with
  | nil => rfl
  | cons c t ih => simp [isPrefixOfB, ih]

theorem containsSub_self (s : Str) : containsSub s s = true := by
  cases s with
  | nil => rfl
  | cons c t => simp [containsSub, isPrefixOfB_self]

theorem pyReplaceAux_of_not_contains (k v : Str) (fuel : Nat) (s : Str)
    (h : containsSub s k = false) : pyReplaceAux k v fuel s = s := by
  induction fuel generalizing s with
  | zero => cases s <;> rfl
  | succ fuel ih =>
    cases s with
    | nil => rfl
    | cons c t =>
      simp only [containsSub, Bool.or_eq_false_iff] at h
      simp only [pyReplaceAux, h.1, Bool.false_eq_true, if_false]
      rw [ih t h.2]

theorem pyReplace_of_not_contains (s k v : Str)
    (h : containsSub s k = false) : pyReplace s k v = s := by
  unfold pyReplace
  split
  · rfl
  · exact pyReplaceAux_of_not_contains k v s.length s h

theorem mem_of_isPrefixOfB {k s : Str} (h : isPrefixOfB k s = true) :
    ∀ c ∈ k, c ∈ s := by
  induction k generalizing s with
  | nil => simp
  | cons a as ih =>
    cases s with
    | nil => simp [isPrefixOfB] at h
    | cons b bs =>
      simp only [isPrefixOfB, Bool.and_eq_true, beq_iff_eq] at h
      intro c hc
      rcases List.mem_cons.mp hc with hc | hc
      · subst hc; rw [h.1]; exact List.mem_cons_self _ _
      · exact List.mem_cons_of_mem _ (ih h.2 c hc)

theorem mem_of_containsSub {s k : Str} (h : containsSub s k = true) :
    ∀ c ∈ k, c ∈ s := by
  induction s with
  | nil =>
    cases k with
    | nil => simp
    | cons a as => simp [containsSub] at h
  | cons b bs ih =>
    simp only [containsSub, Bool.or_eq_true] at h
    rcases h with h | h
    · exact mem_of_isPrefixOfB h
    · exact fun c hc => List.mem_cons_of_mem _ (ih h c hc)

theorem fixEncodingS_of_not_contains (t : Str)
    (h : ∀ kv ∈ ENCODING_FIXES, containsSub t kv.1 = false) :
    fixEncodingS t = t := by
  have hl : lookupA ENCODING_FIXES t = none := by
    unfold lookupA
    rw [List.find?_eq_none.mpr]
    · rfl
    · intro kv hkv hbeq
      rw [beq_iff_eq] at hbeq
      have := h kv hkv
      rw [hbeq, containsSub_self] at this
      cases this
  unfold fixEncodingS
  rw [hl]
  have hgen : ∀ (l : List (Str × Str)), (∀ kv ∈ l, containsSub t kv.1 = false) →
      l.foldl (fun acc kv => if kv.1.length ≤ 3 then pyReplace acc kv.1 kv.2 else acc) t
        = t := by
    intro l
    induction l with
    | nil => intro _; rfl
    | cons kv tl ih =>
      intro hh
      simp only [List.foldl]
      have h1 : (if kv.1.length ≤ 3 then pyReplace t kv.1 kv.2 else t) = t := by
        split
        · exact pyReplace_of_not_contains t kv.1 kv.2 (hh kv (List.mem_cons_self _ _))
        · rfl
      rw [h1]
      exact ih (fun p hp => hh p (List.mem_cons_of_mem _ hp))
  exact hgen ENCODING_FIXES h

/-- Every key of the fix table contains a non-ASCII character. -/
theorem encoding_keys_nonascii :
    ∀ kv ∈ ENCODING_FIXES, ∃ c ∈ kv.1, 128 ≤ c.toNat := by decide

/-- C9: `fix_encoding` is the identity on every string containing none of
the corrupted byte sequences of its fix table — in particular on every
pure-ASCII string — and it returns `None` and the empty string unchanged. -/
theorem c9_fix_encoding_identity (t u : Str)
    (ht : ∀ kv ∈ ENCODING_FIXES, containsSub t kv.1 = false)
    (hu : ∀ c ∈ u, c.toNat < 128) :
    fix_encoding (some t) = some t ∧ fix_encoding (some u) = some u ∧
    fix_encoding none = none ∧ fix_encoding (some []) = some [] := by
  have main : ∀ (s : Str), (∀ kv ∈ ENCODING_FIXES, containsSub s kv.1 = false) →
      fix_encoding (some s) = some s := by
    intro s hs
    simp only [fix_encoding]
    split
    · rfl
    · rw [fixEncodingS_of_not_contains s hs]
  refine ⟨main t ht, ?_, rfl, by decide⟩
  refine main u (fun kv hkv => ?_)
  cases hc : containsSub u kv.1
  · rfl
  · obtain ⟨c, hck, hc128⟩ := encoding_keys_nonascii kv hkv
    have := hu c (mem_of_containsSub hc c hck)
    omega

/-- C9, witness: concrete clean strings. -/
theorem c9_witness :
    fix_encoding (some "Konigsberg".data) = some "Konigsberg".data ∧
    fix_encoding (some "Essex".data) = some "Essex".data ∧
    fix_encoding none = none ∧ fix_encoding (some []) = some [] :=
  c9_fix_encoding_identity "Konigsberg".data "Essex".data (by decide) (by decide)

/-! ### C10 — invariants of every quantity-match CargoItem -/

theorem comma_aux (fuel : Nat) (s : Str) (h : s.length ≤ fuel) :
    containsChar (pyReplaceAux [','] [] fuel s) ',' = false := by
  induction fuel generalizing s with
  | zero =>
    cases s with
    | nil => rfl
    | cons c t => simp at h
  | succ fuel ih =>
    cases s with
    | nil => rfl
    | cons c t =>
      simp only [pyReplaceAux]
      cases hc : isPrefixOfB [','] (c :: t) with
      | true =>
        simp only [hc, if_true, List.nil_append, List.drop_succ_cons, List.drop_zero]
        exact ih t (by simp at h; omega)
      | false =>
        simp only [hc, Bool.false_eq_true, if_false]
        have hne : (c == ',') = false := by
          simp only [isPrefixOfB, Bool.and_eq_false_iff] at hc
          rcases hc with hc | hc
          · rw [beq_eq_false_iff_ne] at hc ⊢
            exact fun e => hc e.symm
          · cases hc
        simp only [containsChar, List.any_cons, hne, Bool.false_or]
        exact ih t (by simp at h; omega)

theorem quantity_no_comma (s : Str) : containsChar (pyReplace s [','] []) ',' = false := by
  unfold pyReplace
  rw [if_neg (by decide)]
  exact comma_aux s.length s (Nat.le_refl _)

theorem isAsciiUpper_toLowerC (c : Char) : isAsciiUpperC (toLowerC c) = false := by
  unfold toLowerC
  split
  next h =>
    simp only [isAsciiUpperC, toNat_ofNat_small (show c.toNat + 32 < 55296 by omega),
      Bool.and_eq_false_iff, decide_eq_false_iff_not]
    right; omega
  next h =>
    split
    next h2 =>
      simp only [isAsciiUpperC, toNat_ofNat_small (show c.toNat + 32 < 55296 by omega),
        Bool.and_eq_false_iff, decide_eq_false_iff_not]
      right; omega
    next h2 =>
      simp only [isAsciiUpperC, Bool.and_eq_false_iff, decide_eq_false_iff_not]
      by_cases h65 : 65 ≤ c.toNat
      · right; intro h90; exact h ⟨h65, h90⟩
      · left; exact h65

theorem mem_lowerS_no_upper {c : Char} {s : Str} (h : c ∈ lowerS s) :
    isAsciiUpperC c = false := by
  unfold lowerS at h
  rw [List.mem_map] at h
  obtain ⟨d, _, hd⟩ := h
  rw [← hd]
  exact isAsciiUpper_toLowerC d

theorem mem_pyRstripDot {c : Char} {s : Str} (h : c ∈ pyRstripDot s) : c ∈ s := by
  unfold pyRstripDot at h
  rw [List.mem_reverse] at h
  have h2 := (List.dropWhile_sublist (fun x => x == '.')).subset h
  rwa [List.mem_reverse] at h2

theorem pyRstripDot_getLast (s : Str) : (pyRstripDot s).getLast? ≠ some '.' := by
  unfold pyRstripDot
  rw [List.getLast?_reverse]
  intro hcontra
  have hne : s.reverse.dropWhile (fun x => x == '.') ≠ [] := by
    intro he
    rw [he] at hcontra
    cases hcontra
  have hh := List.head_dropWhile_not (fun x => x == '.') s.reverse hne
  rw [List.head?_eq_head hne] at hcontra
  injection hcontra with hcontra
  rw [hcontra] at hh
  simp at hh

/-- C10: every CargoItem that `parse_cargo_string` produces from a quantity
match (i.e. whose quantity is set) has a comma-free quantity, a lower-cased
commodity (no ASCII upper-case letter), a unit — when present — that is
lower-cased and does not end in a period, and a raw_text of at most 100
characters. -/
theorem c10_cargo_item_invariants (cargo : Str) (it : CargoItem)
    (hmem : it ∈ parse_cargo_string cargo) (q : Str) (hq : it.quantity = some q) :
    containsChar q ',' = false ∧
    (∀ c ∈ it.commodity, isAsciiUpperC c = false) ∧
    (∀ u, it.unit = some u →
      (∀ c ∈ u, isAsciiUpperC c = false) ∧ u.getLast? ≠ some '.') ∧
    it.raw_text.length ≤ 100 := by
  simp only [parse_cargo_string] at hmem
  split at hmem
  · simp at hmem
  · rw [List.mem_flatMap] at hmem
    obtain ⟨seg, hseg, hit⟩ := hmem
    simp only [parseSegment] at hit
    split at hit
    · simp at hit
    · split at hit
      · split at hit
        · rw [List.mem_singleton] at hit
          subst hit
          simp at hq
        · simp at hit
      · rename_i m ms' hms
        rw [List.mem_map] at hit
        obtain ⟨mm, hmm, hbuild⟩ := hit
        subst hbuild
        refine ⟨?_, ?_, ?_, ?_⟩
        · simp only [buildCargoItem, Option.some.injEq] at hq
          rw [← hq]
          exact quantity_no_comma _
        · intro c hc
          simp only [buildCargoItem] at hc
          exact mem_lowerS_no_upper hc
        · intro u hu
          simp only [buildCargoItem] at hu
          cases hmu : mm.2.1 with
          | none => rw [hmu] at hu; cases hu
          | some u0 =>
            rw [hmu] at hu
            simp only [Option.map] at hu
            injection hu with hu
            subst hu
            constructor
            · intro c hc
              exact mem_lowerS_no_upper (mem_pyRstripDot hc)
            · exact pyRstripDot_getLast _
        · simp only [buildCargoItem]
          rw [List.length_take]
          exact min_le_left _ _

/-- C10, witness: the explicit-unit item parsed from
`"—102 bgs. wood pulp, J. Spicer & Co."`. -/
theorem c10_witness :
    containsChar "102".data ',' = false ∧
    (∀ c ∈ ({ quantity := some "102".data, unit := some "bgs".data,
              commodity := "wood pulp".data,
              merchant := some "J. Spicer & Co".data,
              raw_text := "102 bgs. wood pulp, J. Spicer & Co.".data } :
              CargoItem).commodity,
        isAsciiUpperC c = false) ∧
    (∀ u, ({ quantity := some "102".data, unit := some "bgs".data,
             commodity := "wood pulp".data,
             merchant := some "J. Spicer & Co".data,
             raw_text := "102 bgs. wood pulp, J. Spicer & Co.".data } :
             CargoItem).unit = some u →
      (∀ c ∈ u, isAsciiUpperC c = false) ∧ u.getLast? ≠ some '.') ∧
    ({ quantity := some "102".data, unit := some "bgs".data,
       commodity := "wood pulp".data,
       merchant := some "J. Spicer & Co".data,
       raw_text := "102 bgs. wood pulp, J. Spicer & Co.".data } :
       CargoItem).raw_text.length ≤ 100 :=
  c10_cargo_item_invariants "—102 bgs. wood pulp, J. Spicer & Co.".data _
    (by decide) "102".data (by decide)


/-! ### C7 and C4 — normalizer tiers -/

theorem fuzzyTiers_tier_ne_variant (port : Str) (canonical : List Str) :
    (fuzzyTiers port canonical).tier ≠ Tier.variant := by
  unfold fuzzyTiers
  split
  · simp
  · split
    · simp
    · split
      · split <;> simp
      · simp

/-- C7 (amended): a variant-table entry whose target is absent from the
canonical list is not detected at construction — `__init__` stores the
canonical lists and the hard-coded variant tables verbatim, performs no
validation and emits no warning (and trivially cannot fail) — and the
offending mapping is ignored only during normalization, where
`normalize_port` verifies the mapped target against the canonical list and
falls through to the fuzzy tiers. -/
theorem c7_no_construction_validation (co cd : List Str) (p t : Str)
    (hmap : lookupA originVariantTable (pyStrip p) = some t)
    (habs : exactFind t co = none)
    (hex : exactFind (pyStrip p) co = none)
    (herr : is_obvious_error (pyStrip p) PortType.origin = false)
    (htr : truthyS p = true) (hst : truthyS (pyStrip p) = true) :
    PortNormalizer.init co cd =
      { canonical_origin := co, canonical_dest := cd,
        origin_variant_map := originVariantTable,
        dest_variant_map := destVariantTable } ∧
    (normalize_port (PortNormalizer.init co cd) p PortType.origin).tier ≠
      Tier.variant := by
  refine ⟨rfl, ?_⟩
  simp only [normalize_port, htr, hst, Bool.not_true, Bool.or_self, Bool.false_eq_true,
    if_false, herr, canonOf, vmapOf, PortNormalizer.init]
  rw [hex, hmap]
  simp only
  rw [habs]
  exact fuzzyTiers_tier_ne_variant _ _

theorem fuzzyFold_spec (port : Str) (l : List Str) (b : ℚ) (mo : Option Str) :
    (List.foldl (fuzzyStep port) (b, mo) l = (b, mo) ∧
      ∀ c ∈ l, similarity port c ≤ b) ∨
    (∃ m ∈ l, List.foldl (fuzzyStep port) (b, mo) l = (similarity port m, some m) ∧
      b < similarity port m ∧ ∀ c ∈ l, similarity port c ≤ similarity port m) := by
  induction l generalizing b mo with
  | nil => left; exact ⟨rfl, by simp⟩
  | cons c t ih =>
    simp only [List.foldl_cons]
    by_cases hc : b < similarity port c
    · have hstep : fuzzyStep port (b, mo) c = (similarity port c, some c) := by
        simp [fuzzyStep, hc]
      rw [hstep]
      rcases ih (similarity port c) (some c) with ⟨heq, hbound⟩ | ⟨m, hm, heq, hlt, hbound⟩
      · right
        refine ⟨c, List.mem_cons_self _ _, heq, hc, ?_⟩
        intro d hd
        rcases List.mem_cons.mp hd with hd | hd
        · subst hd; exact le_refl _
        · exact hbound d hd
      · right
        refine ⟨m, List.mem_cons_of_mem _ hm, heq, lt_trans hc hlt, ?_⟩
        intro d hd
        rcases List.mem_cons.mp hd with hd | hd
        · subst hd; exact le_of_lt hlt
        · exact hbound d hd
    · have hstep : fuzzyStep port (b, mo) c = (b, mo) := by
        simp only [fuzzyStep]
        rw [if_neg]
        exact fun hgt => hc hgt
      rw [hstep]
      rcases ih b mo with ⟨heq, hbound⟩ | ⟨m, hm, heq, hlt, hbound⟩
      · left
        refine ⟨heq, ?_⟩
        intro d hd
        rcases List.mem_cons.mp hd with hd | hd
        · subst hd; exact not_lt.mp hc
        · exact hbound d hd
      · right
        refine ⟨m, List.mem_cons_of_mem _ hm, heq, hlt, ?_⟩
        intro d hd
        rcases List.mem_cons.mp hd with hd | hd
        · subst hd; exact le_trans (not_lt.mp hc) (le_of_lt hlt)
        · exact hbound d hd

/-- C4 (amended): for a raw port name that passes the error screen with no
exact and no applicable known-variant match, if the best similarity against
the canonical list is strictly greater than 0.92 then `normalize_port`
auto-accepts that best candidate with tier fuzzy_high, and if the best
similarity is at most 0.92 but strictly greater than 0.85 it returns the
best candidate with tier fuzzy_medium (both thresholds are strict: a
similarity of exactly 0.92 lands in fuzzy_medium, one of exactly 0.85 in
fuzzy_low). -/
theorem c4_strict_thresholds (n : PortNormalizer) (port : Str) (pt : PortType)
    (htr : truthyS port = true) (hst : truthyS (pyStrip port) = true)
    (herr : is_obvious_error (pyStrip port) pt = false)
    (hex : exactFind (pyStrip port) (canonOf n pt) = none)
    (hvar : lookupA (vmapOf n pt) (pyStrip port) = none) :
    ((∃ c ∈ canonOf n pt, mkRat 92 100 < similarity (pyStrip port) c) →
      ∃ m ∈ canonOf n pt,
        normalize_port n port pt =
          ⟨some m, similarity (pyStrip port) m, Tier.fuzzy_high⟩ ∧
        ∀ c ∈ canonOf n pt,
          similarity (pyStrip port) c ≤ similarity (pyStrip port) m) ∧
    ((∀ c ∈ canonOf n pt, similarity (pyStrip port) c ≤ mkRat 92 100) →
      (∃ c ∈ canonOf n pt, mkRat 85 100 < similarity (pyStrip port) c) →
      ∃ m ∈ canonOf n pt,
        normalize_port n port pt =
          ⟨some m, similarity (pyStrip port) m, Tier.fuzzy_medium⟩ ∧
        ∀ c ∈ canonOf n pt,
          similarity (pyStrip port) c ≤ similarity (pyStrip port) m) := by
  have hnp : normalize_port n port pt = fuzzyTiers (pyStrip port) (canonOf n pt) := by
    simp only [normalize_port, htr, hst, Bool.not_true, Bool.or_self,
      Bool.false_eq_true, if_false, herr]
    rw [hex, hvar]
  constructor
  · intro ⟨c, hcmem, hc⟩
    rcases fuzzyFold_spec (pyStrip port) (canonOf n pt) (mkRat 92 100) none with
      ⟨heq, hbound⟩ | ⟨m, hm, heq, hlt, hbound⟩
    · exact absurd hc (not_lt.mpr (hbound c hcmem))
    · refine ⟨m, hm, ?_, hbound⟩
      rw [hnp]
      unfold fuzzyTiers fuzzyBest
      rw [heq]
  · intro hball ⟨c, hcmem, hc⟩
    have h92 : fuzzyBest (pyStrip port) (mkRat 92 100) (canonOf n pt) =
        (mkRat 92 100, none) := by
      unfold fuzzyBest
      rcases fuzzyFold_spec (pyStrip port) (canonOf n pt) (mkRat 92 100) none with
        ⟨heq, _⟩ | ⟨m, hm, _, hlt, _⟩
      · exact heq
      · exact absurd hlt (not_lt.mpr (hball m hm))
    rcases fuzzyFold_spec (pyStrip port) (canonOf n pt) (mkRat 85 100) none with
      ⟨heq, hbound⟩ | ⟨m, hm, heq, hlt, hbound⟩
    · exact absurd hc (not_lt.mpr (hbound c hcmem))
    · refine ⟨m, hm, ?_, hbound⟩
      rw [hnp]
      unfold fuzzyTiers
      rw [h92]
      unfold fuzzyBest
      rw [heq]

/-- C7, witness: the defective configuration with canonical origin list
`["Gothenburg"]` and the dangling mapping `"Dantzic" → "Danzig"`. -/
theorem c7_witness :
    PortNormalizer.init ["Gothenburg".data] [] =
      { canonical_origin := ["Gothenburg".data], canonical_dest := [],
        origin_variant_map := originVariantTable,
        dest_variant_map := destVariantTable } ∧
    (normalize_port (PortNormalizer.init ["Gothenburg".data] [])
        "Dantzic".data PortType.origin).tier ≠ Tier.variant :=
  c7_no_construction_validation ["Gothenburg".data] [] "Dantzic".data "Danzig".data
    (by decide) (by decide) (by decide) (by decide) (by decide) (by decide)

/-- C4, witness: `"Danzigg"` against canonical list `["Danzig"]`
(similarity 12/13 > 0.92) is auto-accepted at tier fuzzy_high. -/
theorem c4_witness :
    ∃ m ∈ canonOf (PortNormalizer.init ["Danzig".data] []) PortType.origin,
      normalize_port (PortNormalizer.init ["Danzig".data] []) "Danzigg".data
          PortType.origin =
        ⟨some m, similarity (pyStrip "Danzigg".data) m, Tier.fuzzy_high⟩ ∧
      ∀ c ∈ canonOf (PortNormalizer.init ["Danzig".data] []) PortType.origin,
        similarity (pyStrip "Danzigg".data) c ≤ similarity (pyStrip "Danzigg".data) m :=
  (c4_strict_thresholds (PortNormalizer.init ["Danzig".data] []) "Danzigg".data
    PortType.origin (by decide) (by decide) (by decide) (by decide) (by decide)).1
    ⟨"Danzig".data, by decide, by decide⟩

/-! ### C8 — idempotence of `normalize_port` at tier exact -/

theorem toNat_sp : (' ' : Char).toNat = 32 := rfl
theorem toNat_tab : ('\t' : Char).toNat = 9 := rfl
theorem toNat_nl : ('\n' : Char).toNat = 10 := rfl
theorem toNat_cr : ('\r' : Char).toNat = 13 := rfl
theorem toNat_vt : ('\x0b' : Char).toNat = 11 := rfl
theorem toNat_ff : ('\x0c' : Char).toNat = 12 := rfl

theorem pyIsSpace_toNat (c : Char) : pyIsSpace c =
    decide (c.toNat = 32 ∨ c.toNat = 9 ∨ c.toNat = 10 ∨ c.toNat = 13 ∨
      c.toNat = 11 ∨ c.toNat = 12) := by
  simp only [pyIsSpace, charEq_toNat, toNat_sp, toNat_tab, toNat_nl, toNat_cr,
    toNat_vt, toNat_ff, Bool.decide_or, Bool.or_assoc]

theorem pyIsSpace_toLowerC (c : Char) : pyIsSpace (toLowerC c) = pyIsSpace c := by
  unfold toLowerC
  split
  next h =>
    rw [pyIsSpace_toNat, pyIsSpace_toNat,
      toNat_ofNat_small (show c.toNat + 32 < 55296 by omega)]
    rw [decide_eq_decide]
    omega
  next h =>
    split
    next h2 =>
      rw [pyIsSpace_toNat, pyIsSpace_toNat,
        toNat_ofNat_small (show c.toNat + 32 < 55296 by omega)]
      rw [decide_eq_decide]
      omega
    next h2 => rfl

theorem dropWhile_head_false {p : Char → Bool} {l : Str} {b : Char} {bs : List Char}
    (h : l.dropWhile p = b :: bs) : p b = false := by
  have hne : l.dropWhile p ≠ [] := by rw [h]; exact List.cons_ne_nil _ _
  have hh := List.head_dropWhile_not p l hne
  have hhead : (l.dropWhile p).head hne = b := by
    have h2 : (l.dropWhile p).head? = some b := by rw [h]; rfl
    rw [List.head?_eq_head hne] at h2
    exact Option.some.inj h2
  rwa [hhead] at hh

theorem dropWhile_eq_self_of_head (p : Char → Bool) (l : Str)
    (h : ∀ c, l.head? = some c → p c = false) : l.dropWhile p = l := by
  cases l with
  | nil => rfl
  | cons c t => simp [List.dropWhile, h c rfl]

theorem pyStrip_idem (s : Str) : pyStrip (pyStrip s) = pyStrip s := by
  unfold pyStrip
  cases hv : (s.dropWhile pyIsSpace).reverse.dropWhile pyIsSpace with
  | nil => simp
  | cons a as =>
    have hz1 : ((a :: as).reverse).dropWhile pyIsSpace = (a :: as).reverse := by
      apply dropWhile_eq_self_of_head
      intro c hc
      rw [List.head?_reverse] at hc
      obtain ⟨pre, hpre⟩ :=
        List.dropWhile_suffix (l := (s.dropWhile pyIsSpace).reverse) pyIsSpace
      rw [hv] at hpre
      have hg : (s.dropWhile pyIsSpace).reverse.getLast? = some c := by
        rw [← hpre, List.getLast?_append, hc]
        rfl
      rw [List.getLast?_reverse] at hg
      cases hu : s.dropWhile pyIsSpace with
      | nil => rw [hu] at hg; cases hg
      | cons b bs =>
        rw [hu] at hg
        injection hg with hg
        subst hg
        exact dropWhile_head_false hu
    rw [hz1, List.reverse_reverse]
    have ha : pyIsSpace a = false := dropWhile_head_false hv
    rw [dropWhile_eq_self_of_head pyIsSpace (a :: as) (fun c hc => by
      injection hc with hc; subst hc; exact ha)]

theorem lowerS_pyStrip (s : Str) : pyStrip (lowerS s) = lowerS (pyStrip s) := by
  have hpf : (pyIsSpace ∘ toLowerC) = pyIsSpace := funext pyIsSpace_toLowerC
  unfold pyStrip lowerS
  rw [List.dropWhile_map, hpf, ← List.map_reverse, List.dropWhile_map, hpf,
    ← List.map_reverse]

theorem fuzzyTiers_tier_ne_exact (port : Str) (canonical : List Str) :
    (fuzzyTiers port canonical).tier ≠ Tier.exact := by
  unfold fuzzyTiers
  split
  · simp
  · split
    · simp
    · split
      · split <;> simp
      · simp

theorem is_obvious_error_strip (y : Str) (pt : PortType) :
    is_obvious_error (pyStrip y) pt = is_obvious_error y pt := by
  unfold is_obvious_error
  rw [pyStrip_idem]
  by_cases hy : truthyS (pyStrip y) = true
  · have hyy : truthyS y = true := by
      cases hyc : y with
      | nil => rw [hyc] at hy; simp [pyStrip, truthyS] at hy
      | cons b bs => simp [truthyS]
    rw [hy, hyy]
  · have hy' : truthyS (pyStrip y) = false := by
      cases hb : truthyS (pyStrip y)
      · rfl
      · exact absurd hb hy
    rw [hy']
    simp

theorem truthyS_ne_nil {y : Str} : truthyS y = true ↔ y ≠ [] := by
  simp [truthyS, List.isEmpty_iff]

theorem exactFind_congr {p q : Str} (canonical : List Str) (h : lowerS p = lowerS q) :
    exactFind p canonical = exactFind q canonical := by
  unfold exactFind
  congr 1
  funext e
  rw [h]

/-- C8 (amended): for every raw name x whose normalization has tier exact
with value c, normalizing c again returns `(c, 1.0, exact)` — provided the
canonical value c itself passes the `is_obvious_error` screen (without that
proviso the claim fails, e.g. for a canonical entry `"and"`). -/
theorem c8_idempotent_on_clean_exact (n : PortNormalizer) (x : Str) (pt : PortType)
    (c : Str) (h : normalize_port n x pt = ⟨some c, 1, Tier.exact⟩)
    (herr : is_obvious_error c pt = false) :
    normalize_port n c pt = ⟨some c, 1, Tier.exact⟩ := by
  simp only [normalize_port] at h
  split at h
  · simp at h
  · rename_i hcond
    split at h
    · simp at h
    · rename_i herrx
      cases hef : exactFind (pyStrip x) (canonOf n pt) with
      | none =>
        rw [hef] at h
        cases hlk : lookupA (vmapOf n pt) (pyStrip x) with
        | some mapped =>
          rw [hlk] at h
          simp only at h
          cases hef2 : exactFind mapped (canonOf n pt) with
          | some c2 => rw [hef2] at h; simp at h
          | none =>
            rw [hef2] at h
            have := congrArg NormResult.tier h
            simp only at this
            exact absurd this (fuzzyTiers_tier_ne_exact _ _)
        | none =>
          rw [hlk] at h
          simp only at h
          have := congrArg NormResult.tier h
          simp only at this
          exact absurd this (fuzzyTiers_tier_ne_exact _ _)
      | some c' =>
        rw [hef] at h
        simp only [NormResult.mk.injEq, Option.some.injEq] at h
        have hc' : c' = c := h.1
        subst hc'
        -- key equations
        have hl : lowerS (pyStrip x) = lowerS c' := by
          have hp := List.find?_some hef
          exact eq_of_beq hp
        have hx' : truthyS (pyStrip x) = true := by
          by_cases hh : truthyS (pyStrip x) = true
          · exact hh
          · exfalso
            apply hcond
            simp only [Bool.or_eq_true, Bool.not_eq_true']
            right
            cases hb : truthyS (pyStrip x)
            · rfl
            · exact absurd hb hh
        have hxne : pyStrip x ≠ [] := truthyS_ne_nil.mp hx'
        have hlenc : c'.length = (pyStrip x).length := by
          have := congrArg List.length hl
          simpa [lowerS] using this.symm
        have hE : lowerS (pyStrip c') = lowerS (pyStrip x) := by
          calc lowerS (pyStrip c') = pyStrip (lowerS c') := (lowerS_pyStrip c').symm
            _ = pyStrip (lowerS (pyStrip x)) := by rw [hl]
            _ = lowerS (pyStrip (pyStrip x)) := lowerS_pyStrip _
            _ = lowerS (pyStrip x) := by rw [pyStrip_idem]
        have hcne : c' ≠ [] := by
          intro he
          apply hxne
          subst he
          have : (pyStrip x).length = 0 := by simpa using hlenc.symm
          exact List.length_eq_zero.mp this
        have hstripc : truthyS (pyStrip c') = true := by
          rw [truthyS_ne_nil]
          intro he
          apply hxne
          have := congrArg List.length hE
          rw [he] at this
          simp [lowerS] at this
          exact List.length_eq_zero.mp this.symm
        -- now compute normalize_port n c' pt
        have hct : truthyS c' = true := truthyS_ne_nil.mpr hcne
        have herr' : is_obvious_error (pyStrip c') pt = false := by
          rw [is_obvious_error_strip]; exact herr
        simp only [normalize_port, hct, hstripc, Bool.not_true, Bool.or_self,
          Bool.false_eq_true, if_false, herr']
        rw [exactFind_congr (canonOf n pt) hE, hef]

/-- C8, witness: `"DANZIG"` resolves exactly to the clean canonical entry
`"Danzig"`, and renormalizing `"Danzig"` is stable. -/
theorem c8_witness :
    normalize_port (PortNormalizer.init ["Danzig".data] []) "Danzig".data
      PortType.origin = ⟨some "Danzig".data, 1, Tier.exact⟩ :=
  c8_idempotent_on_clean_exact (PortNormalizer.init ["Danzig".data] [])
    "DANZIG".data PortType.origin "Danzig".data (by decide) (by decide)


theorem toNat_dot : ('.' : Char).toNat = 46 := rfl
theorem toNat_dash : ('-' : Char).toNat = 45 := rfl
theorem toNat_amp : ('&' : Char).toNat = 38 := rfl
theorem toNat_und : ('_' : Char).toNat = 95 := rfl
theorem toNat_lp : ('(' : Char).toNat = 40 := rfl
theorem toNat_rp : (')' : Char).toNat = 41 := rfl
theorem toNat_apo : apoC.toNat = 39 := rfl
theorem toNat_comma : (',' : Char).toNat = 44 := rfl

theorem isDigit_facts {c : Char} (h : isDigitC c = true) :
    pyIsSpace c = false ∧ isWordC c = true ∧ isAsciiAlphaC c = false ∧
    portHeaderClassC c = false ∧ shipClassC c = false ∧ (c == '.') = false := by
  have hn : 48 ≤ c.toNat ∧ c.toNat ≤ 57 := by
    simpa [isDigitC] using h
  refine ⟨?_, ?_, ?_, ?_, ?_, ?_⟩
  · rw [pyIsSpace_toNat]
    simp only [decide_eq_false_iff_not]
    omega
  · simp [isWordC, h]
  · simp only [isAsciiAlphaC, isAsciiUpperC, isAsciiLowerC, ← Bool.decide_and,
      ← Bool.decide_or, decide_eq_false_iff_not]
    omega
  · simp only [portHeaderClassC, isAsciiUpperC, pyIsSpace_toNat, charEq_toNat,
      toNat_amp, toNat_dot, toNat_apo, toNat_lp, toNat_rp, ← Bool.decide_and,
      ← Bool.decide_or, decide_eq_false_iff_not]
    omega
  · simp only [shipClassC, isAsciiAlphaC, isAsciiUpperC, isAsciiLowerC,
      pyIsSpace_toNat, charEq_toNat, toNat_dot, toNat_amp, toNat_apo, toNat_dash,
      ← Bool.decide_and, ← Bool.decide_or, decide_eq_false_iff_not]
    omega
  · rw [charEq_toNat, toNat_dot]
    simp only [decide_eq_false_iff_not]
    omega

theorem isSpace_facts {c : Char} (h : pyIsSpace c = true) :
    isWordC c = false ∧ (c == '.') = false := by
  rw [pyIsSpace_toNat] at h
  have hn := of_decide_eq_true h
  constructor
  · simp only [isWordC, isAsciiAlphaC, isAsciiUpperC, isAsciiLowerC, isDigitC,
      charEq_toNat, toNat_und, ← Bool.decide_and, ← Bool.decide_or,
      decide_eq_false_iff_not]
    omega
  · rw [charEq_toNat, toNat_dot]
    simp only [decide_eq_false_iff_not]
    omega

theorem runLen_head_false {p : Char → Bool} {c : Char} (t : Str)
    (hc : p c = false) : runLen p (c :: t) = 0 := by
  simp [runLen, hc]

theorem runLen_head_true {p : Char → Bool} {c : Char} (t : Str)
    (hc : p c = true) : runLen p (c :: t) = runLen p t + 1 := by
  simp [runLen, hc]

theorem matchRE_seq {α : Type} (a b : RE) (s : Str) (g : Caps)
    (k : Str → Caps → Option α) :
    matchRE (RE.seq a b) s g k = matchRE a s g (fun t g2 => matchRE b t g2 k) := rfl

theorem matchRE_grp {α : Type} (n : Nat) (a : RE) (s : Str) (g : Caps)
    (k : Str → Caps → Option α) :
    matchRE (RE.grp n a) s g k =
      matchRE a s g (fun t g2 => k t (setG g2 n (s.take (s.length - t.length)))) := rfl

theorem matchRE_eps {α : Type} (s : Str) (g : Caps) (k : Str → Caps → Option α) :
    matchRE RE.eps s g k = k s g := rfl

theorem matchRE_alt_first_none {α : Type} (a b : RE) (s : Str) (g : Caps)
    (k : Str → Caps → Option α) (h : matchRE a s g k = none) :
    matchRE (RE.alt a b) s g k = matchRE b s g k := by
  simp only [matchRE, h]

theorem matchRE_cls_head_false {α : Type} {p : Char → Bool} {c : Char} (t : Str)
    (g : Caps) (k : Str → Caps → Option α) (hc : p c = false) :
    matchRE (RE.cls p) (c :: t) g k = none := by
  simp [matchRE, hc]

theorem matchRE_repCls {α : Type} (p : Char → Bool) (lo : Nat) (hi : Option Nat)
    (lz : Bool) (s : Str) (g : Caps) (k : Str → Caps → Option α) :
    matchRE (RE.repCls p lo hi lz) s g k =
      (candList lo (match hi with | none => runLen p s | some h => min (runLen p s) h)
        lz).findSome? (fun n => k (s.drop n) g) := rfl

theorem matchRE_repCls_short {α : Type} (p : Char → Bool) (lo : Nat) (hi : Option Nat)
    (lz : Bool) (s : Str) (g : Caps) (k : Str → Caps → Option α)
    (h : runLen p s < lo) :
    matchRE (RE.repCls p lo hi lz) s g k = none := by
  cases hi with
  | none =>
    rw [matchRE_repCls]
    simp only [candList]
    have hr : runLen p s + 1 - lo = 0 := by omega
    rw [hr]
    cases lz <;> simp [List.range']
  | some h2 =>
    rw [matchRE_repCls]
    simp only [candList]
    have hr : min (runLen p s) h2 + 1 - lo = 0 := by
      have := Nat.min_le_left (runLen p s) h2
      omega
    rw [hr]
    cases lz <;> simp [List.range']

theorem seq_grp_repCls_short {α : Type} (n : Nat) (p : Char → Bool) (lo : Nat)
    (hi : Option Nat) (lz : Bool) (tail : RE) (s : Str) (g : Caps)
    (k : Str → Caps → Option α) (h : runLen p s < lo) :
    matchRE (RE.seq (RE.grp n (RE.repCls p lo hi lz)) tail) s g k = none := by
  rw [matchRE_seq, matchRE_grp]
  exact matchRE_repCls_short _ _ _ _ _ _ _ h

theorem findSome0_single_none {α β : Type} (f : α → Option β) (a : α)
    (ha : f a = none) : List.findSome? f [a] = none := by
  simp [List.findSome?, ha]

theorem findSome0_pair_none {α β : Type} (f : α → Option β) (a b : α)
    (ha : f a = none) (hb : f b = none) : List.findSome? f [a, b] = none := by
  simp [List.findSome?, ha, hb]

theorem c3h_early {c0 c1 : Char} {rest : Str}
    (hship : shipClassC c0 = false) (hrun : runLen isWordC (c0 :: c1 :: rest) < 3) :
    reMatch earlyAtRE (c0 :: c1 :: rest) = none := by
  simp only [reMatch, earlyAtRE, seqs, List.foldr, optR]
  rw [matchRE_seq,
    matchRE_alt_first_none _ _ _ _ _ (seq_grp_repCls_short _ _ _ _ _ _ _ _ _ hrun),
    matchRE_eps]
  exact seq_grp_repCls_short _ _ _ _ _ _ _ _ _
    (by rw [runLen_head_false _ hship]; omega)

theorem c3h_cond {c0 c1 : Char} {rest : Str} (halpha : isAsciiAlphaC c0 = false) :
    reMatch condensedDashRE (c0 :: c1 :: rest) = none := by
  simp only [reMatch, condensedDashRE, seqs, List.foldr]
  rw [matchRE_seq, matchRE_grp, matchRE_seq]
  exact matchRE_cls_head_false _ _ _ halpha

theorem c3h_guardA {c0 c1 : Char} {rest : Str}
    (hw0 : isWordC c0 = true) (hw1 : isWordC c1 = false)
    (hdot1 : (c1 == '.') = false) :
    reMatch stdGuardRE (c0 :: c1 :: rest) = none := by
  simp only [reMatch, stdGuardRE, seqs, List.foldr, chrR]
  rw [matchRE_seq, matchRE_repCls]
  have hm : runLen isWordC (c0 :: c1 :: rest) = 1 := by
    rw [runLen_head_true _ hw0, runLen_head_false _ hw1]
  rw [hm]
  have hc11 : candList 1 1 false = [1] := by decide
  rw [hc11]
  refine findSome0_single_none _ _ ?_
  simp only [List.drop]
  rw [matchRE_seq]
  exact matchRE_cls_head_false _ _ _ hdot1

theorem c3h_guardB {c0 c1 c2 : Char} {rest : Str}
    (hw0 : isWordC c0 = true) (hw1 : isWordC c1 = true) (hw2 : isWordC c2 = false)
    (hdot1 : (c1 == '.') = false) (hdot2 : (c2 == '.') = false) :
    reMatch stdGuardRE (c0 :: c1 :: c2 :: rest) = none := by
  simp only [reMatch, stdGuardRE, seqs, List.foldr, chrR]
  rw [matchRE_seq, matchRE_repCls]
  have hm : runLen isWordC (c0 :: c1 :: c2 :: rest) = 2 := by
    rw [runLen_head_true _ hw0, runLen_head_true _ hw1, runLen_head_false _ hw2]
  rw [hm]
  have hc12 : candList 1 2 false = [2, 1] := by decide
  rw [hc12]
  refine findSome0_pair_none _ _ _ ?_ ?_
  · simp only [List.drop]
    rw [matchRE_seq]
    exact matchRE_cls_head_false _ _ _ hdot2
  · simp only [List.drop]
    rw [matchRE_seq]
    exact matchRE_cls_head_false _ _ _ hdot1

/-- C3, amended.  A line whose stripped form begins with a bare day token
(a digit followed by whitespace, or two digits followed by whitespace) is not
parsed at all: none of the three record patterns is matched — the early @
pattern rejects a leading digit in the ship class, the dated-dash attempt is
gated on a `month.` prefix by the inline dispatch guard, and the condensed
pattern requires a leading letter — so `parse_line_with_context` emits
nothing, rather than resolving the line to STANDARD_DASH as the spec
claims. -/
theorem c3_bare_day_not_parsed (line : Str) (ctx : List Str) (n : Nat) (y : Option Nat)
    (h : bareDayLead (pyStrip line) = true) :
    matchAttempt (pyStrip line) = none ∧
    parse_line_with_context line ctx n y = none := by
  cases hs : pyStrip line with
  | nil => rw [hs] at h; simp [bareDayLead] at h
  | cons c0 t =>
    cases t with
    | nil => rw [hs] at h; simp [bareDayLead] at h
    | cons c1 rest =>
      rw [hs] at h
      simp only [bareDayLead, Bool.and_eq_true, Bool.or_eq_true] at h
      obtain ⟨hd0, hcase⟩ := h
      have hf0 := isDigit_facts hd0
      have hma : matchAttempt (c0 :: c1 :: rest) = none := by
        have h_cond : reMatch condensedDashRE (c0 :: c1 :: rest) = none :=
          c3h_cond hf0.2.2.1
        rcases hcase with hs1 | hb
        · have hf1 := isSpace_facts hs1
          have h_early : reMatch earlyAtRE (c0 :: c1 :: rest) = none := by
            refine c3h_early hf0.2.2.2.2.1 ?_
            rw [runLen_head_true _ hf0.2.1, runLen_head_false _ hf1.1]
            omega
          have h_guard : reMatch stdGuardRE (c0 :: c1 :: rest) = none :=
            c3h_guardA hf0.2.1 hf1.1 hf1.2
          simp [matchAttempt, h_early, h_guard, h_cond]
        · obtain ⟨hd1, hrest⟩ := hb
          cases rest with
          | nil => simp at hrest
          | cons c2 rest2 =>
            have hf1 := isDigit_facts hd1
            have hf2 := isSpace_facts hrest
            have h_early : reMatch earlyAtRE (c0 :: c1 :: c2 :: rest2) = none := by
              refine c3h_early hf0.2.2.2.2.1 ?_
              rw [runLen_head_true _ hf0.2.1, runLen_head_true _ hf1.2.1,
                runLen_head_false _ hf2.1]
              omega
            have h_guard : reMatch stdGuardRE (c0 :: c1 :: c2 :: rest2) = none :=
              c3h_guardB hf0.2.1 hf1.2.1 hf2.1 hf1.2.2.2.2.2 hf2.2
            simp [matchAttempt, h_early, h_guard, h_cond]
      refine ⟨hma, ?_⟩
      simp only [parse_line_with_context, hs, hma]
      simp

/-- Witness for C3: the counterexample line itself is dropped. -/
theorem c3_witness :
    bareDayLead (pyStrip "11 Essex (s)-Konigsberg-sleepers-Order".data) = true ∧
    (matchAttempt (pyStrip "11 Essex (s)-Konigsberg-sleepers-Order".data) = none ∧
     parse_line_with_context "11 Essex (s)-Konigsberg-sleepers-Order".data [] 1 none =
       none) :=
  ⟨by decide,
   c3_bare_day_not_parsed "11 Essex (s)-Konigsberg-sleepers-Order".data [] 1 none
     (by decide)⟩
